import Mathlib

/-!
Shallow embedding of `src/ocel-generator.py` (class `OCELBuilder`), an
object-centric event log (OCEL) generator for a clinical care pathway.

Modelling conventions:
* Timestamps are integers counting microseconds (the exact resolution of
  Python `datetime`/`timedelta`); `base_time` (the Python
  `datetime(2025, 8, 1, 9, 0, 0)`) is the origin of that scale, kept as a
  configurable field.  `timedelta(minutes = m)` for a float `m` is the
  integer number of microseconds `timedelta` stores for it, so the
  per-trace step drawn from `np.random.normal` enters the model as that
  integer.  The `iso` rendering of a stored timestamp is kept abstract:
  attribute entries and events store the integer time directly
  (`Value.time` for time-valued attribute values).
* The two pseudo-random generators (`random`, `np.random`) are modelled by
  an explicit `Oracle` of deterministic draw functions over `Nat` states,
  threaded through the builder exactly where the Python code draws.  Every
  theorem quantifies over the oracle, so it covers the concrete seeded
  Mersenne twister as one instance.
* Python exceptions (`ValueError` for unknown activities, `KeyError` in
  `_append_attr`) become `Except String`.
-/

namespace OCEL

/-- Attribute values as stored in events and objects: strings, integers,
rendered timestamps, or Python `None`. -/
inductive Value where
  | str : String → Value
  | int : Int → Value
  | time : ℤ → Value
  | none : Value
deriving DecidableEq, Repr, Inhabited

/-- One `name`/`value` pair on an event (`attributes` items of an event). -/
structure EvAttr where
  name : String
  value : Value
deriving DecidableEq, Repr, Inhabited

/-- One event-to-object relationship: `objectId`/`qualifier`. -/
structure EvRel where
  objectId : String
  qualifier : String
deriving DecidableEq, Repr, Inhabited

/-- An event record: `id`, `type`, `time`, attribute pairs, relationships. -/
structure Event where
  id : String
  type : String
  time : ℤ
  attributes : List EvAttr
  relationships : List EvRel
deriving DecidableEq, Repr, Inhabited

/-- One entry of an object's attribute history: `name`/`time`/`value`. -/
structure ObjAttr where
  name : String
  time : ℤ
  value : Value
deriving DecidableEq, Repr, Inhabited

/-- An object record: `id`, `type`, append-only attribute history. -/
structure Obj where
  id : String
  type : String
  attributes : List ObjAttr
deriving DecidableEq, Repr, Inhabited

/-- An object-to-object relationship record (`_emit_o2o` output). -/
structure O2ORel where
  id : String
  type : String
  time : ℤ
  sourceObject : String
  targetObject : String
deriving DecidableEq, Repr, Inhabited

/-- Deterministic draw functions standing for Python's seeded `random` and
`np.random` modules.  States are `Nat`; each draw returns the drawn value
and the successor state.  `pyIdx` receives the length of the list passed to
`random.choice` and yields a raw index (used modulo the length). -/
structure Oracle where
  seedPy : Int → Nat
  seedNp : Int → Nat
  pyIdx : Nat → Nat → Nat × Nat
  pyInt : Nat → Int × Nat
  pyReal : Nat → ℚ × Nat
  npNormal : Nat → ℚ → ℚ → ℤ × Nat
deriving Inhabited

/-- The builder state: the fields of the Python `OCELBuilder` dataclass,
with the (module-global in Python) RNG states made explicit. -/
structure Builder where
  event_seq : Nat := 1
  obj_seq_by_type : List (String × Nat) := []
  o2o_seq : Nat := 1
  obj_id_pad : Nat := 3
  events : List Event := []
  objects : List Obj := []
  objectRelationships : List O2ORel := []
  base_time : ℤ := 0
  event_step_mean_minutes : ℚ := 30
  event_step_std_minutes : ℚ := 10
  pyRng : Nat := 0
  npRng : Nat := 0
deriving DecidableEq, Repr, Inhabited

/-- The per-trace context dictionary built by `_init_trace_objects`. -/
structure Ctx where
  trace_index : Nat
  start_time : ℤ
  patient_id : String
  visit_id : String
  diagnosis_id : Option String
  plan_id : Option String
  medication_ids : List String
  test_ids : List String
  med_cycles : Nat
deriving DecidableEq, Repr, Inhabited

/-- Names of the nine entries of `DEFAULT_EVENT_TYPES` (the declared event
type schema). -/
def default_event_type_names : List String :=
  ["OutpatientRegistration", "InitialVisit", "ImagingTest", "LabTest",
   "FollowUpVisit", "JointConsult", "MedicationTreatment", "Payment",
   "Discharge"]

/-- Names of the entries of `DEFAULT_OBJECT_TYPES`. -/
def default_object_type_names : List String :=
  ["Patient", "Test", "Encounter", "Diagnosis", "TreatmentPlan", "Dose"]

/-- Names of the entries of `DEFAULT_O2O_TYPES`. -/
def default_o2o_type_names : List String :=
  ["Encounter-Patient", "TreatmentPlan-Dose"]

/-- The fixed activity vocabulary accepted by `_add_single_trace`'s
dispatch chain (same nine labels as the event type schema). -/
def activity_vocab : List String := default_event_type_names

/-- Left zero-padding of a string to width `k` (Python `str.zfill`, also
the behaviour of the `{:04d}`-style format specifiers used for ids). -/
def zfill (k : Nat) (s : String) : String :=
  String.mk (List.replicate (k - s.length) '0') ++ s

/-- Python `f-string` rendering of a natural number padded to width `k`. -/
def natPad (k n : Nat) : String := zfill k (Nat.repr n)

/-- One minute in the integer microsecond timescale of `timedelta`. -/
def microsecondsPerMinute : ℤ := 60000000

/-- One hour in the integer microsecond timescale of `timedelta`. -/
def microsecondsPerHour : ℤ := 3600000000

/-- Draw for `random.choice(l)`: pick an element of `l` at an
oracle-supplied index (reduced modulo the length). -/
def pyChoice (o : Oracle) (b : Builder) (l : List String) : String × Builder :=
  let p := o.pyIdx b.pyRng l.length
  (l.getD (p.1 % l.length) "", { b with pyRng := p.2 })

/-- Draw for `random.randint(lo, hi)` (both bounds inclusive). -/
def pyRandint (o : Oracle) (b : Builder) (lo hi : Int) : Int × Builder :=
  let p := o.pyInt b.pyRng
  (lo + p.1.emod (hi - lo + 1), { b with pyRng := p.2 })

/-- Draw for `random.random()`. -/
def pyRandom (o : Oracle) (b : Builder) : ℚ × Builder :=
  let p := o.pyReal b.pyRng
  (p.1, { b with pyRng := p.2 })

/-- Draw for `np.random.normal(mean, std)` with the builder's configured
step mean/std. -/
def npNormalDraw (o : Oracle) (b : Builder) : ℤ × Builder :=
  let p := o.npNormal b.npRng b.event_step_mean_minutes b.event_step_std_minutes
  (p.1, { b with npRng := p.2 })

/-- `_type_prefix.get(type_name, "obj")`. -/
def type_pref (ty : String) : String :=
  if ty = "Patient" then "pat"
  else if ty = "Test" then "test"
  else if ty = "Encounter" then "enc"
  else if ty = "Diagnosis" then "dx"
  else if ty = "TreatmentPlan" then "plan"
  else if ty = "Dose" then "med"
  else "obj"

/-- `_next_obj_suffix`: per-type counter starting at 1 (a dict of
`itertools.count(1)` in the source). -/
def next_obj_suffix (b : Builder) (ty : String) : Nat × Builder :=
  match b.obj_seq_by_type.find? (fun p => p.1 == ty) with
  | some p =>
      (p.2, { b with obj_seq_by_type :=
        b.obj_seq_by_type.map (fun q => if q.1 == ty then (q.1, q.2 + 1) else q) })
  | Option.none =>
      (1, { b with obj_seq_by_type := (ty, 2) :: b.obj_seq_by_type })

/-- `_new_object_id`: type prefix, dash, zero-padded per-type counter. -/
def new_object_id (b : Builder) (ty : String) : String × Builder :=
  let p := next_obj_suffix b ty
  (type_pref ty ++ "-" ++ natPad b.obj_id_pad p.1, p.2)

/-- `_new_event_id`: `"e"` followed by the event counter, no padding. -/
def new_event_id (b : Builder) : String × Builder :=
  ("e" ++ Nat.repr b.event_seq, { b with event_seq := b.event_seq + 1 })

/-- The last object in `objs` whose `id` equals `oid` — the object found
first by the Python `for obj in reversed(self.objects)` scans. -/
def lastMatch (objs : List Obj) (oid : String) : Option Obj :=
  objs.reverse.find? (fun ob => ob.id == oid)

/-- `_get_obj_attr`: scan objects newest-first for `oid`; on a hit, return
the value of the last entry named `attrName`, else Python `None`. -/
def get_obj_attr (b : Builder) (oid attrName : String) : Value :=
  match lastMatch b.objects oid with
  | some ob =>
      match (ob.attributes.filter (fun a => a.name == attrName)).getLast? with
      | some a => a.value
      | Option.none => Value.none
  | Option.none => Value.none

/-- Core of `_append_attr`: append one history entry to the last object
with the given id, or `none` when no object matches (the `KeyError`). -/
def appendAttrList (objs : List Obj) (oid nm : String) (t : ℤ) (v : Value) :
    Option (List Obj) :=
  match objs with
  | [] => Option.none
  | ob :: rest =>
      match appendAttrList rest oid nm t v with
      | some rest' => some (ob :: rest')
      | Option.none =>
          if ob.id == oid then
            some ({ ob with attributes := ob.attributes ++ [⟨nm, t, v⟩] } :: rest)
          else
            Option.none

/-- `_append_attr`: mutate the last matching object or raise `KeyError`. -/
def append_attr (b : Builder) (oid nm : String) (t : ℤ) (v : Value) :
    Except String Builder :=
  match appendAttrList b.objects oid nm t v with
  | some objs => .ok { b with objects := objs }
  | Option.none => .error ("Object " ++ oid ++ " not found")

/-- `_append_obj_attrs`: sequence of `_append_attr` calls. -/
def append_obj_attrs (b : Builder) (oid : String)
    (triples : List (String × ℤ × Value)) : Except String Builder :=
  match triples with
  | [] => .ok b
  | tr :: rest =>
      match append_attr b oid tr.1 tr.2.1 tr.2.2 with
      | .ok b' => append_obj_attrs b' oid rest
      | .error m => .error m

/-- Append a freshly created object to the global collection. -/
def pushObj (b : Builder) (ob : Obj) : Builder :=
  { b with objects := b.objects ++ [ob] }

/-- Append a freshly built event to the global collection. -/
def pushEvent (b : Builder) (e : Event) : Builder :=
  { b with events := b.events ++ [e] }

/-- `_create_patient`. -/
def create_patient (o : Oracle) (b : Builder) (trace_index : Nat) (t : ℤ) :
    String × Builder :=
  let p0 := new_object_id b "Patient"
  let oid := p0.1
  let p1 := pyChoice o p0.2 ["M", "F"]
  let p2 := pyRandint o p1.2 20 85
  let ob : Obj :=
    { id := oid, type := "Patient", attributes :=
      [⟨"patient_id", t, .str ("P-" ++ natPad 4 trace_index)⟩,
       ⟨"sex", t, .str p1.1⟩,
       ⟨"age", t, .int p2.1⟩,
       ⟨"contradindications", t, .str "none"⟩,
       ⟨"allergies", t, .str "none"⟩,
       ⟨"status", t, .str "Outpatient"⟩,
       ⟨"condition", t, .str "Stable"⟩] }
  (oid, pushObj p2.2 ob)

/-- `_create_visit`. -/
def create_visit (o : Oracle) (b : Builder) (trace_index : Nat) (t : ℤ) :
    String × Builder :=
  let p0 := new_object_id b "Encounter"
  let oid := p0.1
  let p1 := pyChoice o p0.2 ["StomachPain", "ChestPain", "ThroatPain"]
  let ob : Obj :=
    { id := oid, type := "Encounter", attributes :=
      [⟨"enc_id", t, .str ("E-" ++ natPad 4 trace_index)⟩,
       ⟨"patient_id", t, .str ("P-" ++ natPad 4 trace_index)⟩,
       ⟨"type", t, .str "Outpatient"⟩,
       ⟨"dept", t, .str "Oncology"⟩,
       ⟨"start_time", t, .time t⟩,
       ⟨"status", t, .str "open"⟩,
       ⟨"reason", t, .str p1.1⟩,
       ⟨"billing_status", t, .str "unpaid"⟩] }
  (oid, pushObj p1.2 ob)

/-- `_create_test` (trace-scoped id `test-{idx:03d}-{n}`, `findings`
forward-dated by 15 minutes). -/
def create_test (o : Oracle) (ctx : Ctx) (t : ℤ) (modality : String)
    (b : Builder) : String × Builder :=
  let n := ctx.test_ids.length + 1
  let oid := "test-" ++ natPad 3 ctx.trace_index ++ "-" ++ Nat.repr n
  let p1 := pyChoice o b ["Suspicious", "Normal"]
  let ob : Obj :=
    { id := oid, type := "Test", attributes :=
      [⟨"test_id", t, .str ("T-" ++ natPad 4 ctx.trace_index ++ "-" ++ modality ++ Nat.repr n)⟩,
       ⟨"patient_id", t, .str ("P-" ++ natPad 4 ctx.trace_index)⟩,
       ⟨"modality", t, .str modality⟩,
       ⟨"perform_time", t, .time t⟩,
       ⟨"result_state", t, .str "Unreviewed"⟩,
       ⟨"findings", t + 15 * microsecondsPerMinute, .str p1.1⟩] }
  (oid, pushObj p1.2 ob)

/-- `_create_diagnosis`. -/
def create_diagnosis (o : Oracle) (ctx : Ctx) (t : ℤ) (b : Builder) :
    String × Builder :=
  let p0 := new_object_id b "Diagnosis"
  let oid := p0.1
  let p1 := pyChoice o p0.2 ["Lung", "Stomach", "Breast"]
  let p2 := pyChoice o p1.2 ["I", "II", "III", "IV"]
  let ob : Obj :=
    { id := oid, type := "Diagnosis", attributes :=
      [⟨"dx_id", t, .str ("DX-" ++ natPad 4 ctx.trace_index)⟩,
       ⟨"patient_id", t, .str ("P-" ++ natPad 4 ctx.trace_index)⟩,
       ⟨"primary_site", t, .str p1.1⟩,
       ⟨"stage", t, .str p2.1⟩,
       ⟨"confirm_time", t, .time t⟩] }
  (oid, pushObj p2.2 ob)

/-- `_create_plan` (reads the diagnosis `dx_id` via `_get_obj_attr`). -/
def create_plan (o : Oracle) (ctx : Ctx) (t : ℤ) (diagnosis_id : String)
    (b : Builder) : String × Builder :=
  let p0 := new_object_id b "TreatmentPlan"
  let oid := p0.1
  let dxVal := get_obj_attr p0.2 diagnosis_id "dx_id"
  let p1 := pyChoice o p0.2 ["curative", "palliative"]
  let p2 := pyChoice o p1.2 ["FOLFOX", "FOLFIRI", "CAPOX"]
  let ob : Obj :=
    { id := oid, type := "TreatmentPlan", attributes :=
      [⟨"plan_id", t, .str ("PLAN-" ++ natPad 4 ctx.trace_index)⟩,
       ⟨"patient_id", t, .str ("P-" ++ natPad 4 ctx.trace_index)⟩,
       ⟨"dx_id", t, dxVal⟩,
       ⟨"intent", t, .str p1.1⟩,
       ⟨"primary_modality", t, .str "medication"⟩,
       ⟨"regimen", t, .str p2.1⟩,
       ⟨"status", t, .str "Planned"⟩] }
  (oid, pushObj p2.2 ob)

/-- `_create_medication` (trace-scoped id `med-{idx:03d}-{n}`,
`adverse_event` forward-dated by 30 minutes). -/
def create_medication (o : Oracle) (ctx : Ctx) (t : ℤ) (plan_id : String)
    (b : Builder) : String × Builder :=
  let n := ctx.medication_ids.length + 1
  let oid := "med-" ++ natPad 3 ctx.trace_index ++ "-" ++ Nat.repr n
  let planVal := get_obj_attr b plan_id "plan_id"
  let p1 := pyChoice o b ["pembrolizumab", "trastuzumab", "paclitaxel"]
  let p2 := pyRandint o p1.2 100 500
  let p3 := pyRandom o p2.2
  let ob : Obj :=
    { id := oid, type := "Dose", attributes :=
      [⟨"admin_id", t, .str ("D-" ++ natPad 4 ctx.trace_index ++ "-" ++ Nat.repr n)⟩,
       ⟨"patient_id", t, .str ("P-" ++ natPad 4 ctx.trace_index)⟩,
       ⟨"plan_id", t, planVal⟩,
       ⟨"drug_name", t, .str p1.1⟩,
       ⟨"amount", t, .int p2.1⟩,
       ⟨"route", t, .str "IV"⟩,
       ⟨"given_time", t, .time t⟩,
       ⟨"adverse_event", t + 30 * microsecondsPerMinute, .str (if mkRat 1 5 < p3.1 then "None" else "Nausea")⟩] }
  (oid, pushObj p3.2 ob)

/-- `_emit_event_registration`. -/
def emit_event_registration (ctx : Ctx) (t : ℤ) (b : Builder) :
    Except String (Ctx × Builder) :=
  let p0 := new_event_id b
  let e : Event :=
    { id := p0.1, type := "OutpatientRegistration", time := t,
      attributes := [⟨"ReceptionDesk", .str ("Outpatient " ++ Nat.repr (ctx.trace_index % 3 + 1))⟩],
      relationships :=
        [⟨ctx.patient_id, "subject"⟩, ⟨ctx.visit_id, "encounter"⟩] }
  .ok (ctx, pushEvent p0.2 e)

/-- `_emit_event_initial_consult`. -/
def emit_event_initial_consult (o : Oracle) (ctx : Ctx) (t : ℤ) (b : Builder) :
    Except String (Ctx × Builder) :=
  let pd := pyChoice o b ["Dr. Kim", "Dr. Cha", "Dr.Jung"]
  match append_attr pd.2 ctx.visit_id "attending" t (.str pd.1) with
  | .error m => .error m
  | .ok b1 =>
      let p0 := new_event_id b1
      let p1 := pyChoice o p0.2 ["Oncology", "Surgery"]
      let e : Event :=
        { id := p0.1, type := "InitialVisit", time := t,
          attributes := [⟨"Department", .str p1.1⟩, ⟨"AttendingPhysician", .str pd.1⟩],
          relationships :=
            [⟨ctx.patient_id, "subject"⟩, ⟨ctx.visit_id, "encounter"⟩] }
      .ok (ctx, pushEvent p1.2 e)

/-- `_emit_event_imaging`. -/
def emit_event_imaging (o : Oracle) (ctx : Ctx) (t : ℤ) (b : Builder) :
    Except String (Ctx × Builder) :=
  let pm := pyChoice o b ["CT", "MRI", "PET"]
  let pt := create_test o ctx t pm.1 pm.2
  let ctx' := { ctx with test_ids := ctx.test_ids ++ [pt.1] }
  let p0 := new_event_id pt.2
  let e : Event :=
    { id := p0.1, type := "ImagingTest", time := t,
      attributes := [⟨"TestType", .str pm.1⟩],
      relationships :=
        [⟨ctx.patient_id, "subject"⟩, ⟨ctx.visit_id, "encounter"⟩,
         ⟨pt.1, "order"⟩] }
  .ok (ctx', pushEvent p0.2 e)

/-- `_emit_event_lab`. -/
def emit_event_lab (o : Oracle) (ctx : Ctx) (t : ℤ) (b : Builder) :
    Except String (Ctx × Builder) :=
  let pm := pyChoice o b ["Blood", "Pathology"]
  let pt := create_test o ctx t pm.1 pm.2
  let ctx' := { ctx with test_ids := ctx.test_ids ++ [pt.1] }
  let p0 := new_event_id pt.2
  let e : Event :=
    { id := p0.1, type := "LabTest", time := t,
      attributes := [⟨"TestType", .str pm.1⟩],
      relationships :=
        [⟨ctx.patient_id, "subject"⟩, ⟨ctx.visit_id, "encounter"⟩,
         ⟨pt.1, "order"⟩] }
  .ok (ctx', pushEvent p0.2 e)

/-- The review loop of `_emit_event_followup`: append
`result_state = "Reviewed"` to every test id in order. -/
def reviewTests (tids : List String) (t : ℤ) (b : Builder) :
    Except String Builder :=
  match tids with
  | [] => .ok b
  | tid :: rest =>
      match append_attr b tid "result_state" t (.str "Reviewed") with
      | .ok b' => reviewTests rest t b'
      | .error m => .error m

/-- `_emit_event_followup`. -/
def emit_event_followup (o : Oracle) (ctx : Ctx) (t : ℤ) (b : Builder) :
    Except String (Ctx × Builder) :=
  match reviewTests ctx.test_ids t b with
  | .error m => .error m
  | .ok b1 =>
      let p0 := new_event_id b1
      let p1 := pyChoice o p0.2 ["AdditionalTesting", "TreatmentPlanning", "Monitoring"]
      let e : Event :=
        { id := p0.1, type := "FollowUpVisit", time := t,
          attributes := [⟨"Assessment", .str p1.1⟩],
          relationships :=
            [⟨ctx.patient_id, "subject"⟩, ⟨ctx.visit_id, "encounter"⟩] ++
            ctx.test_ids.map (fun tid => ⟨tid, "reviewed_test"⟩) }
      .ok (ctx, pushEvent p1.2 e)

/-- Lazy diagnosis/plan creation shared by `_emit_event_mdt` and
`_emit_event_medication` (the two `if ... is None` blocks). -/
def ensureDxPlan (o : Oracle) (ctx : Ctx) (t : ℤ) (b : Builder) :
    (String × String) × Ctx × Builder :=
  let (dxId, ctx1, b1) :=
    match ctx.diagnosis_id with
    | some d => (d, ctx, b)
    | Option.none =>
        let p := create_diagnosis o ctx t b
        (p.1, { ctx with diagnosis_id := some p.1 }, p.2)
  let (planId, ctx2, b2) :=
    match ctx1.plan_id with
    | some p => (p, ctx1, b1)
    | Option.none =>
        let p := create_plan o ctx1 t dxId b1
        (p.1, { ctx1 with plan_id := some p.1 }, p.2)
  ((dxId, planId), ctx2, b2)

/-- `_emit_event_mdt` — note the emitted event type is the string `"MDT"`,
not the dispatching activity label `"JointConsult"`. -/
def emit_event_mdt (o : Oracle) (ctx : Ctx) (t : ℤ) (b : Builder) :
    Except String (Ctx × Builder) :=
  let q := ensureDxPlan o ctx t b
  let dxId := q.1.1
  let planId := q.1.2
  let ctx1 := q.2.1
  let b1 := q.2.2
  let p0 := new_event_id b1
  let e : Event :=
    { id := p0.1, type := "MDT", time := t,
      attributes := [⟨"Care Team", .str "OncologySurgeryRadiology"⟩],
      relationships :=
        [⟨ctx1.patient_id, "subject"⟩, ⟨ctx1.visit_id, "encounter"⟩,
         ⟨dxId, "diagnosis"⟩, ⟨planId, "plan"⟩] }
  .ok (ctx1, pushEvent p0.2 e)

/-- `_emit_event_medication`. -/
def emit_event_medication (o : Oracle) (ctx : Ctx) (t : ℤ) (b : Builder) :
    Except String (Ctx × Builder) :=
  let q := ensureDxPlan o ctx t b
  let planId := q.1.2
  let ctx1 := q.2.1
  let b1 := q.2.2
  let pm := create_medication o ctx1 t planId b1
  let ctx2 := { ctx1 with
    medication_ids := ctx1.medication_ids ++ [pm.1],
    med_cycles := ctx1.med_cycles + 1 }
  match append_attr pm.2 planId "status" t (.str "Proceed") with
  | .error m => .error m
  | .ok b2 =>
      let p0 := new_event_id b2
      let e : Event :=
        { id := p0.1, type := "MedicationTreatment", time := t,
          attributes := [⟨"CycleNumber", .int ctx2.med_cycles⟩],
          relationships :=
            [⟨ctx2.patient_id, "subject"⟩, ⟨ctx2.visit_id, "encounter"⟩,
             ⟨planId, "plan"⟩, ⟨pm.1, "drug_admin"⟩] }
      .ok (ctx2, pushEvent p0.2 e)

/-- `_emit_event_payment` (qualifier `"billing_encounter"`, not
`"encounter"`). -/
def emit_event_payment (o : Oracle) (ctx : Ctx) (t : ℤ) (b : Builder) :
    Except String (Ctx × Builder) :=
  let pa := pyRandint o b 100000 1000000
  let pm := pyChoice o pa.2 ["card", "cash", "transfer"]
  match append_obj_attrs pm.2 ctx.visit_id
      [("billing_amount", t, .int pa.1),
       ("billing_status", t, .str "paid"),
       ("payment_method", t, .str pm.1),
       ("billing_time", t, .time t)] with
  | .error m => .error m
  | .ok b1 =>
      let p0 := new_event_id b1
      let e : Event :=
        { id := p0.1, type := "Payment", time := t,
          attributes := [⟨"PaymentMethod", .str pm.1⟩, ⟨"PaymentAmount", .int pa.1⟩],
          relationships :=
            [⟨ctx.patient_id, "subject"⟩, ⟨ctx.visit_id, "billing_encounter"⟩] }
      .ok (ctx, pushEvent p0.2 e)

/-- `_emit_event_discharge`. -/
def emit_event_discharge (ctx : Ctx) (t : ℤ) (b : Builder) :
    Except String (Ctx × Builder) :=
  match append_obj_attrs b ctx.visit_id
      [("status", t, .str "closed"), ("end_time", t, .time t)] with
  | .error m => .error m
  | .ok b1 =>
      let p0 := new_event_id b1
      let e : Event :=
        { id := p0.1, type := "Discharge", time := t,
          attributes := [],
          relationships :=
            [⟨ctx.patient_id, "subject"⟩, ⟨ctx.visit_id, "encounter"⟩] }
      .ok (ctx, pushEvent p0.2 e)

/-- The `if/elif` dispatch chain of `_add_single_trace`, ending in the
`ValueError` for unknown labels. -/
def step_activity (o : Oracle) (ctx : Ctx) (t : ℤ) (b : Builder)
    (act : String) : Except String (Ctx × Builder) :=
  if act = "OutpatientRegistration" then emit_event_registration ctx t b
  else if act = "InitialVisit" then emit_event_initial_consult o ctx t b
  else if act = "ImagingTest" then emit_event_imaging o ctx t b
  else if act = "LabTest" then emit_event_lab o ctx t b
  else if act = "FollowUpVisit" then emit_event_followup o ctx t b
  else if act = "JointConsult" then emit_event_mdt o ctx t b
  else if act = "MedicationTreatment" then emit_event_medication o ctx t b
  else if act = "Payment" then emit_event_payment o ctx t b
  else if act = "Discharge" then emit_event_discharge ctx t b
  else .error ("Unknown activity label: " ++ act)

/-- The event type string emitted for each (known) activity label: the
label itself, except `JointConsult` whose handler emits `"MDT"`. -/
def emittedType (act : String) : String :=
  if act = "JointConsult" then "MDT" else act

/-- The replay loop of `_add_single_trace`: dispatch each activity at the
cursor time, then advance the cursor by the per-trace step. -/
def replay_acts (o : Oracle) (acts : List String) (ctx : Ctx) (t step : ℤ)
    (b : Builder) : Except String (Ctx × Builder) :=
  match acts with
  | [] => .ok (ctx, b)
  | act :: rest =>
      match step_activity o ctx t b act with
      | .ok p => replay_acts o rest p.1 (t + step) step p.2
      | .error m => .error m

/-- `_init_trace_objects`. -/
def init_trace_objects (o : Oracle) (trace_index : Nat) (start_time : ℤ)
    (b : Builder) : Ctx × Builder :=
  let pp := create_patient o b trace_index start_time
  let pv := create_visit o pp.2 trace_index start_time
  ({ trace_index := trace_index, start_time := start_time,
     patient_id := pp.1, visit_id := pv.1,
     diagnosis_id := Option.none, plan_id := Option.none,
     medication_ids := [], test_ids := [], med_cycles := 0 }, pv.2)

/-- The inner `new_rel` helper of `_emit_o2o`: allocate a relationship id
and append one O2O record. -/
def o2o_new_rel (b : Builder) (rtype : String) (time : ℤ) (src tgt : String) :
    Builder :=
  let rel : O2ORel :=
    { id := "or" ++ Nat.repr b.o2o_seq, type := rtype, time := time,
      sourceObject := src, targetObject := tgt }
  { b with o2o_seq := b.o2o_seq + 1,
           objectRelationships := b.objectRelationships ++ [rel] }

/-- `_emit_o2o`: one `Encounter-Patient` record, then (if a plan and at
least one dose exist) one `TreatmentPlan-Dose` record per dose, all at the
trace start time. -/
def emit_o2o (ctx : Ctx) (b : Builder) : Builder :=
  let b1 := o2o_new_rel b "Encounter-Patient" ctx.start_time ctx.visit_id ctx.patient_id
  match ctx.plan_id with
  | some pid =>
      if ctx.medication_ids.isEmpty then b1
      else ctx.medication_ids.foldl
        (fun bb mid => o2o_new_rel bb "TreatmentPlan-Dose" ctx.start_time pid mid) b1
  | Option.none => b1

/-- `_add_single_trace`. -/
def add_single_trace (o : Oracle) (trace_index : Nat) (activities : List String)
    (b : Builder) : Except String Builder :=
  let t := b.base_time + microsecondsPerHour * ((trace_index : ℤ) - 1)
  let pn := npNormalDraw o b
  let step : ℤ := max (10 * microsecondsPerMinute) pn.1
  let pc := init_trace_objects o trace_index t pn.2
  match replay_acts o activities pc.1 t step pc.2 with
  | .ok p => .ok (emit_o2o p.1 p.2)
  | .error m => .error m

/-- `add_traces` with an explicit starting index (Python
`enumerate(traces, start=1)` is `add_traces_from 1`). -/
def add_traces_from (o : Oracle) (idx : Nat) (traces : List (List String))
    (b : Builder) : Except String Builder :=
  match traces with
  | [] => .ok b
  | tr :: rest =>
      match add_single_trace o idx tr b with
      | .ok b' => add_traces_from o (idx + 1) rest b'
      | .error m => .error m

/-- `add_traces`. -/
def add_traces (o : Oracle) (traces : List (List String)) (b : Builder) :
    Except String Builder :=
  add_traces_from o 1 traces b

/-- The output document assembled by `to_json` (schema dictionaries
abstracted to their name lists). -/
structure OCELDoc where
  eventTypes : List String
  objectTypes : List String
  events : List Event
  objects : List Obj
  objectRelationshipTypes : List String
  objectRelationships : List O2ORel
deriving DecidableEq, Repr, Inhabited

/-- `to_json`. -/
def to_json (b : Builder) : OCELDoc :=
  { eventTypes := default_event_type_names,
    objectTypes := default_object_type_names,
    events := b.events,
    objects := b.objects,
    objectRelationshipTypes := default_o2o_type_names,
    objectRelationships := b.objectRelationships }

/-- `OCELBuilder.__post_init__`: construct a fresh engine.  `ambientPy` /
`ambientNp` are the RNG module states left behind by whatever ran before;
`random.seed` / `np.random.seed` overwrite them from the configured seed,
so they do not occur in the result. -/
def mkBuilder (o : Oracle) (ambientPy ambientNp : Nat) (seed : Int)
    (mean std : ℚ) (base : ℤ) : Builder :=
  { event_step_mean_minutes := mean, event_step_std_minutes := std,
    base_time := base,
    pyRng := o.seedPy seed, npRng := o.seedNp seed }

/-- One full run: construct a fresh engine, replay the traces, serialize.
No document is produced when replay raises. -/
def run_doc (o : Oracle) (ambientPy ambientNp : Nat) (seed : Int)
    (mean std : ℚ) (base : ℤ) (traces : List (List String)) :
    Except String OCELDoc :=
  (add_traces o traces (mkBuilder o ambientPy ambientNp seed mean std base)).map to_json

/-- A concrete oracle for witness runs: every draw returns the least
value (`npNormal` returns 0, so the per-trace step floors at 10). -/
def oracle0 : Oracle :=
  { seedPy := fun _ => 0, seedNp := fun _ => 0,
    pyIdx := fun s _ => (0, s), pyInt := fun s => (0, s),
    pyReal := fun s => (1, s), npNormal := fun s _ _ => (0, s) }

/-- The default-configured builder (seed 42, mean 30, std 10). -/
def builder0 : Builder := mkBuilder oracle0 0 0 42 30 10 0

/-- The id/type signature of the objects collection (used to state which
objects a piece of code creates, independently of attribute mutation). -/
def objSig (objs : List Obj) : List (String × String) :=
  objs.map (fun ob => (ob.id, ob.type))

/-- A list of timestamps in non-decreasing order. -/
def monoTimes (l : List ℤ) : Prop := l.Pairwise (· ≤ ·)

/-- The timestamps of the history entries of `ob` named `nm`, in append
order. -/
def nameTimes (ob : Obj) (nm : String) : List ℤ :=
  (ob.attributes.filter (fun a => a.name == nm)).map (fun a => a.time)

/-- Per-name chronology: for every attribute name, the entries of `ob`
with that name appear in non-decreasing timestamp order, so the most
recently appended entry with a name is also the latest-stamped one. -/
def PerNameMono (ob : Obj) : Prop := ∀ nm, monoTimes (nameTimes ob nm)

/-- Every history entry of `ob` is stamped no later than `t`. -/
def entriesLE (ob : Obj) (t : ℤ) : Prop := ∀ a ∈ ob.attributes, a.time ≤ t

/-- Every history entry of `ob` other than the forward-dated `findings`
entry is stamped no later than `t`. -/
def entriesLEx (ob : Obj) (t : ℤ) : Prop :=
  ∀ a ∈ ob.attributes, a.name ≠ "findings" → a.time ≤ t

/-- Replay invariant tying a trace context to the builder at cursor time
`t`: all objects are per-name chronological, and the context's encounter,
test and plan ids resolve (newest-first, as the mutation scan does) to
objects of the right type whose mutable entries are stamped at most `t`. -/
def InvH (ctx : Ctx) (t : ℤ) (b : Builder) : Prop :=
  (∀ ob ∈ b.objects, PerNameMono ob) ∧
  (∃ x, ctx.visit_id = "enc-" ++ x) ∧
  (∃ ob, lastMatch b.objects ctx.visit_id = some ob ∧ ob.type = "Encounter" ∧
    entriesLE ob t) ∧
  (∀ tid ∈ ctx.test_ids, (∃ x, tid = "test-" ++ x) ∧
    ∃ ob, lastMatch b.objects tid = some ob ∧ ob.type = "Test" ∧
      entriesLEx ob t) ∧
  (∀ pid, ctx.plan_id = some pid → (∃ x, pid = "plan-" ++ x) ∧
    ∃ ob, lastMatch b.objects pid = some ob ∧ ob.type = "TreatmentPlan" ∧
      entriesLE ob t)

/-- What one successful activity dispatch does to the context, the events
collection and the object signature: context identity fields survive,
diagnosis/plan ids are stable once set, exactly one event is appended (at
the cursor time, with the dispatched activity's emitted type and a
`subject` relationship to the trace patient), object relationships are
untouched, and the objects created are Tests/Diagnoses/TreatmentPlans/Doses
in the counted amounts. -/
def StepShape (ctx : Ctx) (t : ℤ) (b : Builder) (act : String) (ctx' : Ctx)
    (b' : Builder) : Prop :=
  ctx'.patient_id = ctx.patient_id ∧
  ctx'.visit_id = ctx.visit_id ∧
  ctx'.trace_index = ctx.trace_index ∧
  ctx'.start_time = ctx.start_time ∧
  (∀ d, ctx.diagnosis_id = some d → ctx'.diagnosis_id = some d) ∧
  (∀ p, ctx.plan_id = some p → ctx'.plan_id = some p) ∧
  b'.objectRelationships = b.objectRelationships ∧
  ∃ e sigs,
    b'.events = b.events ++ [e] ∧
    e.time = t ∧
    e.type = emittedType act ∧
    EvRel.mk ctx.patient_id "subject" ∈ e.relationships ∧
    (∀ r ∈ e.relationships,
      (r.qualifier = "diagnosis" → ctx'.diagnosis_id = some r.objectId) ∧
      (r.qualifier = "plan" → ctx'.plan_id = some r.objectId)) ∧
    objSig b'.objects = objSig b.objects ++ sigs ∧
    (∀ p ∈ sigs, p.2 = "Test" ∨ p.2 = "Diagnosis" ∨ p.2 = "TreatmentPlan" ∨
      p.2 = "Dose") ∧
    sigs.countP (fun p => p.2 == "Diagnosis") =
      (if ctx.diagnosis_id.isSome then 0 else
        if ctx'.diagnosis_id.isSome then 1 else 0) ∧
    sigs.countP (fun p => p.2 == "TreatmentPlan") =
      (if ctx.plan_id.isSome then 0 else
        if ctx'.plan_id.isSome then 1 else 0) ∧
    sigs.countP (fun p => p.2 == "Dose") + ctx.medication_ids.length =
      ctx'.medication_ids.length

/-- The accumulated form of `StepShape` over a whole activity list: one
event per activity, timestamps advancing by exactly `step` from `t`. -/
def ReplayShape (ctx : Ctx) (t step : ℤ) (b : Builder) (acts : List String)
    (ctx' : Ctx) (b' : Builder) : Prop :=
  ctx'.patient_id = ctx.patient_id ∧
  ctx'.visit_id = ctx.visit_id ∧
  ctx'.trace_index = ctx.trace_index ∧
  ctx'.start_time = ctx.start_time ∧
  (∀ d, ctx.diagnosis_id = some d → ctx'.diagnosis_id = some d) ∧
  (∀ p, ctx.plan_id = some p → ctx'.plan_id = some p) ∧
  b'.objectRelationships = b.objectRelationships ∧
  ∃ es sigs,
    b'.events = b.events ++ es ∧
    es.length = acts.length ∧
    (∀ k (hk : k < es.length) (hk2 : k < acts.length),
      (es.get ⟨k, hk⟩).time = t + k * step ∧
      (es.get ⟨k, hk⟩).type = emittedType (acts.get ⟨k, hk2⟩) ∧
      EvRel.mk ctx.patient_id "subject" ∈ (es.get ⟨k, hk⟩).relationships) ∧
    (∀ e ∈ es, ∀ r ∈ e.relationships,
      (r.qualifier = "diagnosis" → ctx'.diagnosis_id = some r.objectId) ∧
      (r.qualifier = "plan" → ctx'.plan_id = some r.objectId)) ∧
    objSig b'.objects = objSig b.objects ++ sigs ∧
    (∀ p ∈ sigs, p.2 = "Test" ∨ p.2 = "Diagnosis" ∨ p.2 = "TreatmentPlan" ∨
      p.2 = "Dose") ∧
    sigs.countP (fun p => p.2 == "Diagnosis") =
      (if ctx.diagnosis_id.isSome then 0 else
        if ctx'.diagnosis_id.isSome then 1 else 0) ∧
    sigs.countP (fun p => p.2 == "TreatmentPlan") =
      (if ctx.plan_id.isSome then 0 else
        if ctx'.plan_id.isSome then 1 else 0) ∧
    sigs.countP (fun p => p.2 == "Dose") + ctx.medication_ids.length =
      ctx'.medication_ids.length

end OCEL

namespace OCEL

theorem append_ne_append_of_head (c d : Char) (p q a b : String)
    (hp : p.data.head? = some c) (hq : q.data.head? = some d) (hcd : c ≠ d) :
    p ++ a ≠ q ++ b := by
  intro h
  have h2 := congrArg (fun s : String => s.data.head?) h
  simp only [String.data_append, List.head?_append, hp, hq, Option.or_some] at h2
  exact hcd (Option.some.inj h2)

theorem appendAttrList_none_iff (oid nm : String) (t : ℤ) (v : Value) :
    ∀ objs : List Obj, appendAttrList objs oid nm t v = Option.none ↔
      ∀ x ∈ objs, x.id ≠ oid := by
  intro objs
  induction objs with
  | nil => simp [appendAttrList]
  | cons ob rest ih =>
      rw [appendAttrList]
      rcases hr : appendAttrList rest oid nm t v with _ | rest'
      · rw [hr] at ih
        by_cases hid : ob.id = oid
        · simp [hid]
        · simp only [beq_eq_false_iff_ne, ne_eq, hid, not_false_eq_true, if_neg,
            beq_iff_eq]
          constructor
          · intro _ x hx
            rcases List.mem_cons.mp hx with h1 | h2
            · rw [h1]; exact hid
            · exact (ih.mp rfl) x h2
          · intro _; trivial
      · constructor
        · intro h; exact absurd h (by simp)
        · intro hall
          have : appendAttrList rest oid nm t v = Option.none :=
            ih.mpr fun x hx => hall x (List.mem_cons_of_mem _ hx)
          rw [this] at hr; exact absurd hr (by simp)

theorem appendAttrList_some (oid nm : String) (t : ℤ) (v : Value) :
    ∀ objs objs' : List Obj, appendAttrList objs oid nm t v = some objs' →
      ∃ l₁ ob l₂, objs = l₁ ++ ob :: l₂ ∧ ob.id = oid ∧
        (∀ x ∈ l₂, x.id ≠ oid) ∧
        objs' = l₁ ++ { ob with attributes := ob.attributes ++ [⟨nm, t, v⟩] } :: l₂ := by
  intro objs
  induction objs with
  | nil => intro objs' h; simp [appendAttrList] at h
  | cons ob rest ih =>
      intro objs' h
      rw [appendAttrList] at h
      rcases hr : appendAttrList rest oid nm t v with _ | rest'
      · rw [hr] at h
        by_cases hid : ob.id = oid
        · simp only [hid, beq_self_eq_true, if_true] at h
          refine ⟨[], ob, rest, by simp, hid, ?_, ?_⟩
          · exact (appendAttrList_none_iff oid nm t v rest).mp hr
          · rw [hid]; simpa using h.symm
        · rw [if_neg (by simpa using hid)] at h
          exact absurd h (by simp)
      · rw [hr] at h
        rcases ih rest' hr with ⟨l₁, mid, l₂, hdec, hmid, hl₂, hres⟩
        refine ⟨ob :: l₁, mid, l₂, by simp [hdec], hmid, hl₂, ?_⟩
        have : objs' = ob :: rest' := by simpa using h.symm
        simp [this, hres]

theorem lastMatch_append_one (l : List Obj) (ob : Obj) (oid : String) :
    lastMatch (l ++ [ob]) oid =
      if ob.id = oid then some ob else lastMatch l oid := by
  by_cases hid : ob.id = oid
  · simp [lastMatch, List.find?, hid]
  · simp [lastMatch, List.find?, hid]

theorem lastMatch_decomp (l₁ l₂ : List Obj) (ob : Obj) (oid : String)
    (hid : ob.id = oid) (hl₂ : ∀ x ∈ l₂, x.id ≠ oid) :
    lastMatch (l₁ ++ ob :: l₂) oid = some ob := by
  unfold lastMatch
  rw [List.reverse_append, List.reverse_cons, List.append_assoc,
    List.find?_append, List.find?_append]
  have h2 : List.find? (fun x => x.id == oid) l₂.reverse = Option.none :=
    List.find?_eq_none.mpr (by intro x hx; simpa using hl₂ x (by simpa using hx))
  rw [h2]
  simp [List.find?, hid]

theorem lastMatch_update (l₁ l₂ : List Obj) (ob ob' : Obj)
    (hid : ob'.id = ob.id) (oid : String) (hne : oid ≠ ob.id) :
    lastMatch (l₁ ++ ob' :: l₂) oid = lastMatch (l₁ ++ ob :: l₂) oid := by
  unfold lastMatch
  rw [List.reverse_append, List.reverse_cons, List.append_assoc,
    List.find?_append, List.find?_append]
  rw [List.reverse_append, List.reverse_cons, List.append_assoc,
    List.find?_append, List.find?_append]
  have hb1 : (ob'.id == oid) = false := by
    simp only [beq_eq_false_iff_ne, ne_eq, hid]
    exact fun h => hne h.symm
  have hb2 : (ob.id == oid) = false := by
    simp only [beq_eq_false_iff_ne, ne_eq]
    exact fun h => hne h.symm
  have h1 : List.find? (fun x : Obj => x.id == oid) [ob'] = Option.none := by
    simp [List.find?, hb1]
  have h2 : List.find? (fun x : Obj => x.id == oid) [ob] = Option.none := by
    simp [List.find?, hb2]
  rw [h1, h2]

theorem monoTimes_of_length_le_one {l : List ℤ} (h : l.length ≤ 1) :
    monoTimes l := by
  match l, h with
  | [], _ => exact List.Pairwise.nil
  | [a], _ => simp [monoTimes]

theorem perNameMono_of_nodup_names (ob : Obj)
    (h : (ob.attributes.map (fun a => a.name)).Nodup) : PerNameMono ob := by
  intro nm
  apply monoTimes_of_length_le_one
  rw [nameTimes, List.length_map]
  by_contra hlen
  push_neg at hlen
  rcases hf : ob.attributes.filter (fun a => a.name == nm) with _ | ⟨a, _ | ⟨c, l⟩⟩
  · simp [hf] at hlen
  · simp [hf] at hlen
  · have hsub := List.filter_sublist (l := ob.attributes) (p := fun a => a.name == nm)
    rw [hf] at hsub
    have hnd := List.Nodup.sublist (hsub.map (fun a => a.name)) h
    have ha : a.name = nm := by
      have := List.mem_filter.mp (hf ▸ List.mem_cons_self a (c :: l))
      simpa using this.2
    have hc : c.name = nm := by
      have := List.mem_filter.mp (hf ▸ List.mem_cons_of_mem a (List.mem_cons_self c l))
      simpa using this.2
    simp [ha, hc] at hnd

theorem monoTimes_append_one {l : List ℤ} {t : ℤ} (h : monoTimes l)
    (hle : ∀ x ∈ l, x ≤ t) : monoTimes (l ++ [t]) := by
  rw [monoTimes, List.pairwise_append]
  exact ⟨h, List.pairwise_singleton _ _, by simpa using hle⟩

theorem nameTimes_append (ob : Obj) (nm nm' : String) (t : ℤ) (v : Value) :
    nameTimes { ob with attributes := ob.attributes ++ [⟨nm, t, v⟩] } nm' =
      nameTimes ob nm' ++ (if nm = nm' then [t] else []) := by
  by_cases h : nm = nm'
  · simp [nameTimes, List.filter_append, h]
  · simp [nameTimes, List.filter_append, h]

theorem perNameMono_append (ob : Obj) (nm : String) (t : ℤ) (v : Value)
    (h : PerNameMono ob)
    (hle : ∀ a ∈ ob.attributes, a.name = nm → a.time ≤ t) :
    PerNameMono { ob with attributes := ob.attributes ++ [⟨nm, t, v⟩] } := by
  intro nm'
  rw [nameTimes_append]
  by_cases hn : nm = nm'
  · rw [if_pos hn]
    apply monoTimes_append_one (h nm')
    intro x hx
    rw [nameTimes] at hx
    rcases List.mem_map.mp hx with ⟨a, ha, rfl⟩
    have := List.mem_filter.mp ha
    have h2 : a.name = nm' := by simpa using this.2
    exact hle a this.1 (by rw [hn]; exact h2)
  · rw [if_neg hn]
    simpa using h nm'

theorem entriesLE_mono {ob : Obj} {t t' : ℤ} (h : entriesLE ob t)
    (hle : t ≤ t') : entriesLE ob t' :=
  fun a ha => le_trans (h a ha) hle

theorem entriesLEx_mono {ob : Obj} {t t' : ℤ} (h : entriesLEx ob t)
    (hle : t ≤ t') : entriesLEx ob t' :=
  fun a ha hn => le_trans (h a ha hn) hle

theorem entriesLE_append {ob : Obj} {t : ℤ} (h : entriesLE ob t)
    (nm : String) (v : Value) :
    entriesLE { ob with attributes := ob.attributes ++ [⟨nm, t, v⟩] } t := by
  intro a ha
  simp only [List.mem_append, List.mem_singleton] at ha
  rcases ha with ha | rfl
  · exact h a ha
  · exact le_refl t

theorem entriesLEx_append {ob : Obj} {t : ℤ} (h : entriesLEx ob t)
    (nm : String) (v : Value) :
    entriesLEx { ob with attributes := ob.attributes ++ [⟨nm, t, v⟩] } t := by
  intro a ha hn
  simp only [List.mem_append, List.mem_singleton] at ha
  rcases ha with ha | rfl
  · exact h a ha hn
  · exact le_refl t

theorem objSig_update (l₁ l₂ : List Obj) (ob ob' : Obj)
    (hid : ob'.id = ob.id) (hty : ob'.type = ob.type) :
    objSig (l₁ ++ ob' :: l₂) = objSig (l₁ ++ ob :: l₂) := by
  simp [objSig, hid, hty]

theorem objSig_append_one (l : List Obj) (ob : Obj) :
    objSig (l ++ [ob]) = objSig l ++ [(ob.id, ob.type)] := by
  simp [objSig]

theorem append_attr_ok_shape {b b' : Builder} {oid nm : String} {t : ℤ}
    {v : Value} (h : append_attr b oid nm t v = .ok b') :
    ∃ l₁ ob l₂, b.objects = l₁ ++ ob :: l₂ ∧ ob.id = oid ∧
      (∀ x ∈ l₂, x.id ≠ oid) ∧
      b' = { b with objects :=
        l₁ ++ { ob with attributes := ob.attributes ++ [⟨nm, t, v⟩] } :: l₂ } := by
  rw [append_attr] at h
  rcases hr : appendAttrList b.objects oid nm t v with _ | objs'
  · rw [hr] at h; exact absurd h (by simp)
  · rw [hr] at h
    rcases appendAttrList_some oid nm t v b.objects objs' hr with
      ⟨l₁, ob, l₂, hdec, hid, hl₂, hres⟩
    refine ⟨l₁, ob, l₂, hdec, hid, hl₂, ?_⟩
    have : b' = { b with objects := objs' } := by
      simpa using h.symm
    rw [this, hres]

theorem append_attr_invh {ctx : Ctx} {t : ℤ} {b b' : Builder}
    {oid nm : String} {v : Value}
    (h : append_attr b oid nm t v = .ok b')
    (hinv : InvH ctx t b)
    (hcase : oid = ctx.visit_id ∨ (oid ∈ ctx.test_ids ∧ nm ≠ "findings") ∨
      ctx.plan_id = some oid) :
    InvH ctx t b' := by
  obtain ⟨hmono, hvpre, hvobj, htests, hplan⟩ := hinv
  rcases append_attr_ok_shape h with ⟨l₁, ob, l₂, hdec, hid, hl₂, hb'⟩
  set ob' : Obj := { ob with attributes := ob.attributes ++ [⟨nm, t, v⟩] } with hob'
  have hobjs' : b'.objects = l₁ ++ ob' :: l₂ := by rw [hb']
  have hlmOb : lastMatch b.objects oid = some ob := by
    rw [hdec]; exact lastMatch_decomp l₁ l₂ ob oid hid hl₂
  have hlm' : lastMatch b'.objects oid = some ob' := by
    rw [hobjs']; exact lastMatch_decomp l₁ l₂ ob' oid hid hl₂
  have hlmOther : ∀ id', id' ≠ oid → lastMatch b'.objects id' = lastMatch b.objects id' := by
    intro id' hne
    rw [hobjs', hdec]
    exact lastMatch_update l₁ l₂ ob ob' rfl id' (by rw [hid]; exact hne)
  have hmem : ob ∈ b.objects := by rw [hdec]; simp
  -- the target object bound: entries of `ob` named `nm` are stamped ≤ t
  have hchain : ∀ a ∈ ob.attributes, a.name = nm → a.time ≤ t := by
    rcases hcase with hv | ⟨ht, hnm⟩ | hp
    · rcases hvobj with ⟨obv, hlv, _, hle⟩
      have : obv = ob := by
        rw [← hv] at hlv; rw [hlmOb] at hlv; exact (Option.some.inj hlv).symm
      intro a ha _; exact hle a (this ▸ ha)
    · rcases htests oid ht with ⟨_, obt, hlt, _, hle⟩
      have : obt = ob := by
        rw [hlmOb] at hlt; exact (Option.some.inj hlt).symm
      intro a ha hnma; exact hle a (this ▸ ha) (by rw [hnma]; exact hnm)
    · rcases hplan oid hp with ⟨_, obp, hlp, _, hle⟩
      have : obp = ob := by
        rw [hlmOb] at hlp; exact (Option.some.inj hlp).symm
      intro a ha _; exact hle a (this ▸ ha)
  have hmono' : ∀ x ∈ b'.objects, PerNameMono x := by
    intro x hx
    rw [hobjs'] at hx
    rcases List.mem_append.mp hx with hx1 | hx2
    · exact hmono x (by rw [hdec]; exact List.mem_append_left _ hx1)
    · rcases List.mem_cons.mp hx2 with rfl | hx3
      · exact perNameMono_append ob nm t v (hmono ob hmem) hchain
      · exact hmono x (by rw [hdec]; exact List.mem_append_right _ (List.mem_cons_of_mem _ hx3))
  refine ⟨hmono', hvpre, ?_, ?_, ?_⟩
  · -- the encounter object
    rcases hvobj with ⟨obv, hlv, hty, hle⟩
    by_cases hov : ctx.visit_id = oid
    · have hveq : obv = ob := by
        rw [hov] at hlv; rw [hlmOb] at hlv; exact (Option.some.inj hlv).symm
      refine ⟨ob', by rw [hov]; exact hlm', by rw [hob']; simpa using hveq ▸ hty, ?_⟩
      exact entriesLE_append (hveq ▸ hle) nm v
    · exact ⟨obv, by rw [hlmOther _ hov]; exact hlv, hty, hle⟩
  · -- the test objects
    intro tid htid
    rcases htests tid htid with ⟨hpre, obt, hlt, hty, hle⟩
    by_cases hot : tid = oid
    · have hteq : obt = ob := by
        rw [hot] at hlt; rw [hlmOb] at hlt; exact (Option.some.inj hlt).symm
      refine ⟨hpre, ob', by rw [hot]; exact hlm', by rw [hob']; simpa using hteq ▸ hty, ?_⟩
      exact entriesLEx_append (hteq ▸ hle) nm v
    · exact ⟨hpre, obt, by rw [hlmOther _ hot]; exact hlt, hty, hle⟩
  · -- the plan object
    intro pid hpid
    rcases hplan pid hpid with ⟨hpre, obp, hlp, hty, hle⟩
    by_cases hop : pid = oid
    · have hpeq : obp = ob := by
        rw [hop] at hlp; rw [hlmOb] at hlp; exact (Option.some.inj hlp).symm
      refine ⟨hpre, ob', by rw [hop]; exact hlm', by rw [hob']; simpa using hpeq ▸ hty, ?_⟩
      exact entriesLE_append (hpeq ▸ hle) nm v
    · exact ⟨hpre, obp, by rw [hlmOther _ hop]; exact hlp, hty, hle⟩

theorem invh_of_objects_eq {ctx : Ctx} {t : ℤ} {b b' : Builder}
    (hobj : b'.objects = b.objects) (hinv : InvH ctx t b) : InvH ctx t b' := by
  obtain ⟨hmono, hvpre, hvobj, htests, hplan⟩ := hinv
  exact ⟨by rw [hobj]; exact hmono, hvpre, by rw [hobj]; exact hvobj,
    by rw [hobj]; exact htests, by rw [hobj]; exact hplan⟩

theorem invh_ctx_congr {ctx ctx' : Ctx} {t : ℤ} {b : Builder}
    (hv : ctx'.visit_id = ctx.visit_id) (ht : ctx'.test_ids = ctx.test_ids)
    (hp : ctx'.plan_id = ctx.plan_id) (hinv : InvH ctx t b) : InvH ctx' t b := by
  obtain ⟨hmono, hvpre, hvobj, htests, hplan⟩ := hinv
  exact ⟨hmono, by rw [hv]; exact hvpre, by rw [hv]; exact hvobj,
    by rw [ht]; exact htests, by rw [hp]; exact hplan⟩

theorem invh_time_mono {ctx : Ctx} {t t' : ℤ} {b : Builder}
    (hle : t ≤ t') (hinv : InvH ctx t b) : InvH ctx t' b := by
  obtain ⟨hmono, hvpre, hvobj, htests, hplan⟩ := hinv
  refine ⟨hmono, hvpre, ?_, ?_, ?_⟩
  · rcases hvobj with ⟨ob, h1, h2, h3⟩
    exact ⟨ob, h1, h2, entriesLE_mono h3 hle⟩
  · intro tid htid
    rcases htests tid htid with ⟨hpre, ob, h1, h2, h3⟩
    exact ⟨hpre, ob, h1, h2, entriesLEx_mono h3 hle⟩
  · intro pid hpid
    rcases hplan pid hpid with ⟨hpre, ob, h1, h2, h3⟩
    exact ⟨hpre, ob, h1, h2, entriesLE_mono h3 hle⟩

theorem pushObj_invh {ctx : Ctx} {t : ℤ} {b : Builder} {ob : Obj}
    (hinv : InvH ctx t b) (hmono : PerNameMono ob)
    (hvid : ob.id ≠ ctx.visit_id)
    (htest : (ob.type = "Test" ∧ entriesLEx ob t) ∨
      (∀ tid ∈ ctx.test_ids, ob.id ≠ tid))
    (hplanNew : (ob.type = "TreatmentPlan" ∧ entriesLE ob t) ∨
      (∀ pid, ctx.plan_id = some pid → ob.id ≠ pid)) :
    InvH ctx t (pushObj b ob) := by
  obtain ⟨hmonoAll, hvpre, hvobj, htests, hplan⟩ := hinv
  have hobjs : (pushObj b ob).objects = b.objects ++ [ob] := rfl
  refine ⟨?_, hvpre, ?_, ?_, ?_⟩
  · intro x hx
    rw [hobjs] at hx
    rcases List.mem_append.mp hx with hx1 | hx2
    · exact hmonoAll x hx1
    · rw [List.mem_singleton.mp hx2]; exact hmono
  · rcases hvobj with ⟨obv, h1, h2, h3⟩
    refine ⟨obv, ?_, h2, h3⟩
    rw [hobjs, lastMatch_append_one, if_neg hvid]
    exact h1
  · intro tid htid
    rcases htests tid htid with ⟨hpre, obt, h1, h2, h3⟩
    by_cases hot : ob.id = tid
    · rcases htest with ⟨hty, hle⟩ | hne
      · exact ⟨hpre, ob, by rw [hobjs, lastMatch_append_one, if_pos hot], hty, hle⟩
      · exact absurd hot (hne tid htid)
    · exact ⟨hpre, obt, by rw [hobjs, lastMatch_append_one, if_neg hot]; exact h1, h2, h3⟩
  · intro pid hpid
    rcases hplan pid hpid with ⟨hpre, obp, h1, h2, h3⟩
    by_cases hop : ob.id = pid
    · rcases hplanNew with ⟨hty, hle⟩ | hne
      · exact ⟨hpre, ob, by rw [hobjs, lastMatch_append_one, if_pos hop], hty, hle⟩
      · exact absurd hop (hne pid hpid)
    · exact ⟨hpre, obp, by rw [hobjs, lastMatch_append_one, if_neg hop]; exact h1, h2, h3⟩

theorem create_test_spec (o : Oracle) (ctx : Ctx) (t : ℤ) (modality : String)
    (b : Builder) :
    (∃ x, (create_test o ctx t modality b).1 = "test-" ++ x) ∧
    ∃ ob, (create_test o ctx t modality b).2.objects = b.objects ++ [ob] ∧
      ob.id = (create_test o ctx t modality b).1 ∧ ob.type = "Test" ∧
      PerNameMono ob ∧ entriesLEx ob t ∧
      (create_test o ctx t modality b).2.events = b.events ∧
      (create_test o ctx t modality b).2.objectRelationships = b.objectRelationships := by
  unfold create_test
  simp only [pushObj]
  constructor
  · exact ⟨natPad 3 ctx.trace_index ++ "-" ++ Nat.repr (ctx.test_ids.length + 1),
      by simp [String.append_assoc]⟩
  · refine ⟨_, rfl, rfl, rfl, ?_, ?_, rfl, rfl⟩
    · apply perNameMono_of_nodup_names
      simp
    · intro a ha hn
      simp only [List.mem_cons, List.not_mem_nil, or_false] at ha
      rcases ha with rfl | rfl | rfl | rfl | rfl | rfl <;> simp_all

theorem next_obj_suffix_fields (b : Builder) (ty : String) :
    (next_obj_suffix b ty).2.objects = b.objects ∧
    (next_obj_suffix b ty).2.events = b.events ∧
    (next_obj_suffix b ty).2.objectRelationships = b.objectRelationships := by
  unfold next_obj_suffix
  rcases h : b.obj_seq_by_type.find? (fun p => p.1 == ty) with _ | p <;> simp [h]

theorem lastMatch_pushObj_self (b : Builder) (ob : Obj) :
    lastMatch (pushObj b ob).objects ob.id = some ob := by
  show lastMatch (b.objects ++ [ob]) ob.id = some ob
  rw [lastMatch_append_one, if_pos rfl]

theorem invh_extend_test {ctx : Ctx} {t : ℤ} {b : Builder} {tid : String}
    (hinv : InvH ctx t b)
    (hpre : ∃ x, tid = "test-" ++ x)
    (hob : ∃ ob, lastMatch b.objects tid = some ob ∧ ob.type = "Test" ∧
      entriesLEx ob t) :
    InvH { ctx with test_ids := ctx.test_ids ++ [tid] } t b := by
  obtain ⟨hmono, hvpre, hvobj, htests, hplan⟩ := hinv
  refine ⟨hmono, hvpre, hvobj, ?_, hplan⟩
  intro tid' htid'
  simp only [List.mem_append, List.mem_singleton] at htid'
  rcases htid' with h | rfl
  · exact htests tid' h
  · exact ⟨hpre, hob⟩

theorem invh_set_plan {ctx : Ctx} {t : ℤ} {b : Builder} {pid : String}
    (hinv : InvH ctx t b)
    (hpre : ∃ x, pid = "plan-" ++ x)
    (hob : ∃ ob, lastMatch b.objects pid = some ob ∧ ob.type = "TreatmentPlan" ∧
      entriesLE ob t) :
    InvH { ctx with plan_id := some pid } t b := by
  obtain ⟨hmono, hvpre, hvobj, htests, hplan⟩ := hinv
  refine ⟨hmono, hvpre, hvobj, htests, ?_⟩
  intro pid' hpid'
  have : pid' = pid := by simpa using hpid'.symm
  subst this
  exact ⟨hpre, hob⟩

theorem create_patient_mono (o : Oracle) (b : Builder) (i : Nat) (t : ℤ)
    (hmono : ∀ ob ∈ b.objects, PerNameMono ob) :
    (∀ ob ∈ (create_patient o b i t).2.objects, PerNameMono ob) ∧
    (create_patient o b i t).2.events = b.events ∧
    (create_patient o b i t).2.objectRelationships = b.objectRelationships := by
  obtain ⟨h1, h2, h3⟩ := next_obj_suffix_fields b "Patient"
  unfold create_patient new_object_id
  simp only [pushObj, pyChoice, pyRandint]
  refine ⟨?_, by simp [h2], by simp [h3]⟩
  intro ob hob
  simp only [h1, List.mem_append, List.mem_singleton] at hob
  rcases hob with h | rfl
  · exact hmono ob h
  · apply perNameMono_of_nodup_names
    simp

theorem create_visit_post (o : Oracle) (b : Builder) (i : Nat) (t : ℤ)
    (hmono : ∀ ob ∈ b.objects, PerNameMono ob) :
    (∀ ob ∈ (create_visit o b i t).2.objects, PerNameMono ob) ∧
    (∃ x, (create_visit o b i t).1 = "enc-" ++ x) ∧
    (∃ ob, lastMatch (create_visit o b i t).2.objects (create_visit o b i t).1 =
      some ob ∧ ob.type = "Encounter" ∧ entriesLE ob t) ∧
    (create_visit o b i t).2.events = b.events ∧
    (create_visit o b i t).2.objectRelationships = b.objectRelationships := by
  obtain ⟨h1, h2, h3⟩ := next_obj_suffix_fields b "Encounter"
  unfold create_visit new_object_id
  simp only [pyChoice]
  refine ⟨?_, ?_, ?_, by simp [pushObj, h2], by simp [pushObj, h3]⟩
  · intro ob hob
    simp only [pushObj, h1, List.mem_append, List.mem_singleton] at hob
    rcases hob with h | rfl
    · exact hmono ob h
    · apply perNameMono_of_nodup_names
      simp
  · exact ⟨natPad b.obj_id_pad (next_obj_suffix b "Encounter").1,
      by simp [type_pref, String.append_assoc]⟩
  · refine ⟨_, lastMatch_pushObj_self _ _, rfl, ?_⟩
    intro a ha
    simp only [List.mem_cons, List.not_mem_nil, or_false] at ha
    rcases ha with rfl | rfl | rfl | rfl | rfl | rfl | rfl | rfl <;> simp_all

theorem type_pref_patient : type_pref "Patient" = "pat" := rfl

theorem type_pref_encounter : type_pref "Encounter" = "enc" := rfl

theorem type_pref_diagnosis : type_pref "Diagnosis" = "dx" := rfl

theorem type_pref_plan : type_pref "TreatmentPlan" = "plan" := rfl

theorem init_invh (o : Oracle) (i : Nat) (t : ℤ) (b : Builder)
    (hmono : ∀ ob ∈ b.objects, PerNameMono ob) :
    InvH (init_trace_objects o i t b).1 t (init_trace_objects o i t b).2 := by
  obtain ⟨hm1, _, _⟩ := create_patient_mono o b i t hmono
  obtain ⟨hm2, hvpre, hvobj, _, _⟩ :=
    create_visit_post o (create_patient o b i t).2 i t hm1
  unfold init_trace_objects
  exact ⟨hm2, hvpre, hvobj, by simp, by simp⟩

theorem create_test_invh (o : Oracle) {ctx : Ctx} {t : ℤ} {b : Builder}
    (modality : String) (hinv : InvH ctx t b) :
    InvH { ctx with test_ids := ctx.test_ids ++ [(create_test o ctx t modality b).1] }
      t (create_test o ctx t modality b).2 := by
  obtain ⟨x, hx⟩ := hinv.2.1
  unfold create_test
  simp only [pyChoice]
  apply invh_extend_test
  · apply pushObj_invh (invh_of_objects_eq rfl hinv)
    · apply perNameMono_of_nodup_names
      simp
    · show ¬ _ = _
      rw [hx]
      simp only [String.append_assoc]
      exact append_ne_append_of_head 't' 'e' "test-" "enc-" _ _ rfl rfl (by decide)
    · left
      refine ⟨rfl, ?_⟩
      intro a ha hn
      simp only [List.mem_cons, List.not_mem_nil, or_false] at ha
      rcases ha with rfl | rfl | rfl | rfl | rfl | rfl <;> simp_all
    · right
      intro pid hpid hcontra
      obtain ⟨y, hy⟩ := (hinv.2.2.2.2 pid hpid).1
      rw [hy] at hcontra
      revert hcontra
      simp only [String.append_assoc]
      exact append_ne_append_of_head 't' 'p' "test-" "plan-" _ _ rfl rfl (by decide)
  · exact ⟨natPad 3 ctx.trace_index ++ ("-" ++ Nat.repr (ctx.test_ids.length + 1)),
      by simp [String.append_assoc]⟩
  · refine ⟨_, lastMatch_pushObj_self _ _, rfl, ?_⟩
    intro a ha hn
    simp only [List.mem_cons, List.not_mem_nil, or_false] at ha
    rcases ha with rfl | rfl | rfl | rfl | rfl | rfl <;> simp_all

theorem create_diagnosis_invh (o : Oracle) {ctx : Ctx} {t : ℤ} {b : Builder}
    (hinv : InvH ctx t b) : InvH ctx t (create_diagnosis o ctx t b).2 := by
  obtain ⟨x, hx⟩ := hinv.2.1
  unfold create_diagnosis new_object_id
  simp only [pyChoice, type_pref_diagnosis]
  apply pushObj_invh (invh_of_objects_eq (by simp [(next_obj_suffix_fields b "Diagnosis").1]) hinv)
  · apply perNameMono_of_nodup_names
    simp
  · show ¬ _ = _
    rw [hx]
    simp only [String.append_assoc]
    exact append_ne_append_of_head 'd' 'e' "dx" "enc-" _ _ rfl rfl (by decide)
  · right
    intro tid htid hcontra
    obtain ⟨y, hy⟩ := (hinv.2.2.2.1 tid htid).1
    rw [hy] at hcontra
    revert hcontra
    simp only [String.append_assoc]
    exact append_ne_append_of_head 'd' 't' "dx" "test-" _ _ rfl rfl (by decide)
  · right
    intro pid hpid hcontra
    obtain ⟨y, hy⟩ := (hinv.2.2.2.2 pid hpid).1
    rw [hy] at hcontra
    revert hcontra
    simp only [String.append_assoc]
    exact append_ne_append_of_head 'd' 'p' "dx" "plan-" _ _ rfl rfl (by decide)

theorem create_plan_invh (o : Oracle) {ctx : Ctx} {t : ℤ} {b : Builder}
    (dxId : String) (hinv : InvH ctx t b) :
    InvH { ctx with plan_id := some (create_plan o ctx t dxId b).1 } t
      (create_plan o ctx t dxId b).2 := by
  obtain ⟨x, hx⟩ := hinv.2.1
  unfold create_plan new_object_id
  simp only [pyChoice, type_pref_plan]
  apply invh_set_plan
  · apply pushObj_invh (invh_of_objects_eq (by simp [(next_obj_suffix_fields b "TreatmentPlan").1]) hinv)
    · apply perNameMono_of_nodup_names
      simp
    · show ¬ _ = _
      rw [hx]
      simp only [String.append_assoc]
      exact append_ne_append_of_head 'p' 'e' "plan" "enc-" _ _ rfl rfl (by decide)
    · right
      intro tid htid hcontra
      obtain ⟨y, hy⟩ := (hinv.2.2.2.1 tid htid).1
      rw [hy] at hcontra
      revert hcontra
      simp only [String.append_assoc]
      exact append_ne_append_of_head 'p' 't' "plan" "test-" _ _ rfl rfl (by decide)
    · left
      refine ⟨rfl, ?_⟩
      intro a ha
      simp only [List.mem_cons, List.not_mem_nil, or_false] at ha
      rcases ha with rfl | rfl | rfl | rfl | rfl | rfl | rfl <;> simp_all
  · exact ⟨natPad b.obj_id_pad (next_obj_suffix b "TreatmentPlan").1,
      by simp [String.append_assoc]⟩
  · refine ⟨_, lastMatch_pushObj_self _ _, rfl, ?_⟩
    intro a ha
    simp only [List.mem_cons, List.not_mem_nil, or_false] at ha
    rcases ha with rfl | rfl | rfl | rfl | rfl | rfl | rfl <;> simp_all

theorem create_medication_invh (o : Oracle) {ctx : Ctx} {t : ℤ} {b : Builder}
    (planId : String) (hinv : InvH ctx t b) :
    InvH ctx t (create_medication o ctx t planId b).2 := by
  obtain ⟨x, hx⟩ := hinv.2.1
  unfold create_medication
  simp only [pyChoice, pyRandint, pyRandom]
  apply pushObj_invh (invh_of_objects_eq rfl hinv)
  · apply perNameMono_of_nodup_names
    simp
  · show ¬ _ = _
    rw [hx]
    simp only [String.append_assoc]
    exact append_ne_append_of_head 'm' 'e' "med-" "enc-" _ _ rfl rfl (by decide)
  · right
    intro tid htid hcontra
    obtain ⟨y, hy⟩ := (hinv.2.2.2.1 tid htid).1
    rw [hy] at hcontra
    revert hcontra
    simp only [String.append_assoc]
    exact append_ne_append_of_head 'm' 't' "med-" "test-" _ _ rfl rfl (by decide)
  · right
    intro pid hpid hcontra
    obtain ⟨y, hy⟩ := (hinv.2.2.2.2 pid hpid).1
    rw [hy] at hcontra
    revert hcontra
    simp only [String.append_assoc]
    exact append_ne_append_of_head 'm' 'p' "med-" "plan-" _ _ rfl rfl (by decide)

theorem reviewTests_invh {tids : List String} {t : ℤ} {ctx : Ctx}
    {b b' : Builder} (h : reviewTests tids t b = .ok b') (hinv : InvH ctx t b)
    (hsub : ∀ tid ∈ tids, tid ∈ ctx.test_ids) : InvH ctx t b' := by
  induction tids generalizing b with
  | nil =>
      rw [reviewTests] at h
      cases h
      exact hinv
  | cons tid rest ih =>
      rw [reviewTests] at h
      rcases happ : append_attr b tid "result_state" t (.str "Reviewed") with m | b1
      · rw [happ] at h; exact absurd h (by simp)
      · rw [happ] at h
        have hinv1 := append_attr_invh happ hinv
          (Or.inr (Or.inl ⟨hsub tid (by simp), by decide⟩))
        exact ih h hinv1 (fun tid' h' => hsub tid' (by simp [h']))

theorem append_obj_attrs_invh {triples : List (String × ℤ × Value)} {t : ℤ}
    {ctx : Ctx} {b b' : Builder}
    (h : append_obj_attrs b ctx.visit_id triples = .ok b') (hinv : InvH ctx t b)
    (htime : ∀ tr ∈ triples, tr.2.1 = t) : InvH ctx t b' := by
  induction triples generalizing b with
  | nil =>
      rw [append_obj_attrs] at h
      cases h
      exact hinv
  | cons tr rest ih =>
      rw [append_obj_attrs] at h
      rcases happ : append_attr b ctx.visit_id tr.1 tr.2.1 tr.2.2 with m | b1
      · rw [happ] at h; exact absurd h (by simp)
      · rw [happ] at h
        rw [htime tr (by simp)] at happ
        have hinv1 := append_attr_invh happ hinv (Or.inl rfl)
        exact ih h hinv1 (fun tr' h' => htime tr' (by simp [h']))

theorem ensureDxPlan_ctx (o : Oracle) (ctx : Ctx) (t : ℤ) (b : Builder) :
    (ensureDxPlan o ctx t b).2.1.diagnosis_id = some (ensureDxPlan o ctx t b).1.1 ∧
    (ensureDxPlan o ctx t b).2.1.plan_id = some (ensureDxPlan o ctx t b).1.2 ∧
    (ensureDxPlan o ctx t b).2.1.patient_id = ctx.patient_id ∧
    (ensureDxPlan o ctx t b).2.1.visit_id = ctx.visit_id ∧
    (ensureDxPlan o ctx t b).2.1.trace_index = ctx.trace_index ∧
    (ensureDxPlan o ctx t b).2.1.start_time = ctx.start_time ∧
    (ensureDxPlan o ctx t b).2.1.medication_ids = ctx.medication_ids ∧
    (ensureDxPlan o ctx t b).2.1.test_ids = ctx.test_ids ∧
    (ensureDxPlan o ctx t b).2.1.med_cycles = ctx.med_cycles ∧
    (∀ d, ctx.diagnosis_id = some d → (ensureDxPlan o ctx t b).1.1 = d) ∧
    (∀ p, ctx.plan_id = some p → (ensureDxPlan o ctx t b).1.2 = p) := by
  rcases hd : ctx.diagnosis_id with _ | d <;> rcases hp : ctx.plan_id with _ | p <;>
    simp [ensureDxPlan, hd, hp]

theorem ensureDxPlan_invh {o : Oracle} {ctx : Ctx} {t : ℤ} {b : Builder}
    (hinv : InvH ctx t b) :
    InvH (ensureDxPlan o ctx t b).2.1 t (ensureDxPlan o ctx t b).2.2 := by
  unfold ensureDxPlan
  rcases hd : ctx.diagnosis_id with _ | d
  · simp only
    rcases hp : ctx.plan_id with _ | p
    · simp only [hp]
      have h1 := create_diagnosis_invh o hinv
      have h2 : InvH { ctx with diagnosis_id := some (create_diagnosis o ctx t b).1 }
          t (create_diagnosis o ctx t b).2 := by
        refine invh_ctx_congr ?_ ?_ ?_ h1 <;> rfl
      have h3 := @create_plan_invh o
        { ctx with diagnosis_id := some (create_diagnosis o ctx t b).1 } t
        (create_diagnosis o ctx t b).2 (create_diagnosis o ctx t b).1 h2
      exact h3
    · simp only [hp]
      have h1 := create_diagnosis_invh o hinv
      refine invh_ctx_congr ?_ ?_ ?_ h1
      · rfl
      · rfl
      · exact hp.symm
  · simp only
    rcases hp : ctx.plan_id with _ | p
    · simp only [hp]
      exact create_plan_invh o d hinv
    · simp only [hp]
      exact hinv

theorem emit_registration_invh {ctx ctx' : Ctx} {t : ℤ} {b b' : Builder}
    (h : emit_event_registration ctx t b = .ok (ctx', b'))
    (hinv : InvH ctx t b) : InvH ctx' t b' := by
  unfold emit_event_registration at h
  cases h
  exact invh_of_objects_eq rfl hinv

theorem emit_initial_consult_invh {o : Oracle} {ctx ctx' : Ctx} {t : ℤ}
    {b b' : Builder} (h : emit_event_initial_consult o ctx t b = .ok (ctx', b'))
    (hinv : InvH ctx t b) : InvH ctx' t b' := by
  unfold emit_event_initial_consult at h
  dsimp only at h
  split at h
  · exact absurd h (by simp)
  · rename_i b1 heq
    cases h
    have hr := append_attr_invh heq (invh_of_objects_eq rfl hinv) (Or.inl rfl)
    exact invh_of_objects_eq rfl hr

theorem emit_imaging_invh {o : Oracle} {ctx ctx' : Ctx} {t : ℤ}
    {b b' : Builder} (h : emit_event_imaging o ctx t b = .ok (ctx', b'))
    (hinv : InvH ctx t b) : InvH ctx' t b' := by
  unfold emit_event_imaging at h
  cases h
  exact invh_of_objects_eq rfl
    (create_test_invh o _ (invh_of_objects_eq rfl hinv))

theorem emit_lab_invh {o : Oracle} {ctx ctx' : Ctx} {t : ℤ}
    {b b' : Builder} (h : emit_event_lab o ctx t b = .ok (ctx', b'))
    (hinv : InvH ctx t b) : InvH ctx' t b' := by
  unfold emit_event_lab at h
  cases h
  exact invh_of_objects_eq rfl
    (create_test_invh o _ (invh_of_objects_eq rfl hinv))

theorem emit_followup_invh {o : Oracle} {ctx ctx' : Ctx} {t : ℤ}
    {b b' : Builder} (h : emit_event_followup o ctx t b = .ok (ctx', b'))
    (hinv : InvH ctx t b) : InvH ctx' t b' := by
  unfold emit_event_followup at h
  dsimp only at h
  split at h
  · exact absurd h (by simp)
  · rename_i b1 heq
    cases h
    have hr := reviewTests_invh heq hinv (fun tid h' => h')
    exact invh_of_objects_eq rfl hr

theorem emit_mdt_invh {o : Oracle} {ctx ctx' : Ctx} {t : ℤ}
    {b b' : Builder} (h : emit_event_mdt o ctx t b = .ok (ctx', b'))
    (hinv : InvH ctx t b) : InvH ctx' t b' := by
  unfold emit_event_mdt at h
  cases h
  exact invh_of_objects_eq rfl (ensureDxPlan_invh hinv)

theorem emit_medication_invh {o : Oracle} {ctx ctx' : Ctx} {t : ℤ}
    {b b' : Builder} (h : emit_event_medication o ctx t b = .ok (ctx', b'))
    (hinv : InvH ctx t b) : InvH ctx' t b' := by
  unfold emit_event_medication at h
  dsimp only at h
  split at h
  · exact absurd h (by simp)
  · rename_i b2 heq
    cases h
    have hinv1 := ensureDxPlan_invh (o := o) (t := t) hinv
    have hinv2 := create_medication_invh o (ensureDxPlan o ctx t b).1.2 hinv1
    have hinv3 : InvH { (ensureDxPlan o ctx t b).2.1 with
        medication_ids := (ensureDxPlan o ctx t b).2.1.medication_ids ++
          [(create_medication o (ensureDxPlan o ctx t b).2.1 t
            (ensureDxPlan o ctx t b).1.2 (ensureDxPlan o ctx t b).2.2).1],
        med_cycles := (ensureDxPlan o ctx t b).2.1.med_cycles + 1 } t
        (create_medication o (ensureDxPlan o ctx t b).2.1 t
          (ensureDxPlan o ctx t b).1.2 (ensureDxPlan o ctx t b).2.2).2 := by
      refine invh_ctx_congr ?_ ?_ ?_ hinv2 <;> rfl
    have hplan : ({ (ensureDxPlan o ctx t b).2.1 with
        medication_ids := (ensureDxPlan o ctx t b).2.1.medication_ids ++
          [(create_medication o (ensureDxPlan o ctx t b).2.1 t
            (ensureDxPlan o ctx t b).1.2 (ensureDxPlan o ctx t b).2.2).1],
        med_cycles := (ensureDxPlan o ctx t b).2.1.med_cycles + 1 } : Ctx).plan_id =
        some (ensureDxPlan o ctx t b).1.2 :=
      (ensureDxPlan_ctx o ctx t b).2.1
    have hr := append_attr_invh heq hinv3 (Or.inr (Or.inr hplan))
    exact invh_of_objects_eq rfl hr

theorem emit_payment_invh {o : Oracle} {ctx ctx' : Ctx} {t : ℤ}
    {b b' : Builder} (h : emit_event_payment o ctx t b = .ok (ctx', b'))
    (hinv : InvH ctx t b) : InvH ctx' t b' := by
  unfold emit_event_payment at h
  dsimp only at h
  split at h
  · exact absurd h (by simp)
  · rename_i b1 heq
    cases h
    have hr := append_obj_attrs_invh heq (invh_of_objects_eq rfl hinv) (by
      intro tr htr
      simp only [List.mem_cons, List.not_mem_nil, or_false] at htr
      rcases htr with rfl | rfl | rfl | rfl <;> rfl)
    exact invh_of_objects_eq rfl hr

theorem emit_discharge_invh {ctx ctx' : Ctx} {t : ℤ}
    {b b' : Builder} (h : emit_event_discharge ctx t b = .ok (ctx', b'))
    (hinv : InvH ctx t b) : InvH ctx' t b' := by
  unfold emit_event_discharge at h
  dsimp only at h
  split at h
  · exact absurd h (by simp)
  · rename_i b1 heq
    cases h
    have hr := append_obj_attrs_invh heq hinv (by
      intro tr htr
      simp only [List.mem_cons, List.not_mem_nil, or_false] at htr
      rcases htr with rfl | rfl <;> rfl)
    exact invh_of_objects_eq rfl hr

theorem step_invh {o : Oracle} {ctx ctx' : Ctx} {t : ℤ} {b b' : Builder}
    {act : String} (h : step_activity o ctx t b act = .ok (ctx', b'))
    (hinv : InvH ctx t b) : InvH ctx' t b' := by
  unfold step_activity at h
  split_ifs at h
  · exact emit_registration_invh h hinv
  · exact emit_initial_consult_invh h hinv
  · exact emit_imaging_invh h hinv
  · exact emit_lab_invh h hinv
  · exact emit_followup_invh h hinv
  · exact emit_mdt_invh h hinv
  · exact emit_medication_invh h hinv
  · exact emit_payment_invh h hinv
  · exact emit_discharge_invh h hinv

theorem replay_invh {o : Oracle} {acts : List String} {ctx ctx' : Ctx}
    {t step : ℤ} {b b' : Builder}
    (h : replay_acts o acts ctx t step b = .ok (ctx', b')) (hstep : 0 ≤ step)
    (hinv : InvH ctx t b) : ∃ t', InvH ctx' t' b' := by
  induction acts generalizing ctx t b with
  | nil =>
      rw [replay_acts] at h
      cases h
      exact ⟨t, hinv⟩
  | cons act rest ih =>
      rw [replay_acts] at h
      split at h
      · rename_i p heq
        have h1 := step_invh heq hinv
        have h2 := invh_time_mono (by linarith : t ≤ t + step) h1
        exact ih h h2
      · exact absurd h (by simp)

theorem emit_o2o_objects (ctx : Ctx) (b : Builder) :
    (emit_o2o ctx b).objects = b.objects ∧
    (emit_o2o ctx b).events = b.events := by
  unfold emit_o2o
  have hfold : ∀ (l : List String) (bb : Builder) (pid : String),
      (l.foldl (fun bb mid =>
        o2o_new_rel bb "TreatmentPlan-Dose" ctx.start_time pid mid) bb).objects =
        bb.objects ∧
      (l.foldl (fun bb mid =>
        o2o_new_rel bb "TreatmentPlan-Dose" ctx.start_time pid mid) bb).events =
        bb.events := by
    intro l
    induction l with
    | nil => intro bb pid; exact ⟨rfl, rfl⟩
    | cons x xs ih => intro bb pid; exact ih _ pid
  rcases hp : ctx.plan_id with _ | pid
  · exact ⟨rfl, rfl⟩
  · by_cases hm : ctx.medication_ids.isEmpty
    · simp only [hm, if_true]
      exact ⟨rfl, rfl⟩
    · simp only [hm, if_false]
      exact hfold ctx.medication_ids _ pid

theorem add_single_trace_mono {o : Oracle} {i : Nat} {acts : List String}
    {b b' : Builder} (h : add_single_trace o i acts b = .ok b')
    (hmono : ∀ ob ∈ b.objects, PerNameMono ob) :
    ∀ ob ∈ b'.objects, PerNameMono ob := by
  unfold add_single_trace at h
  dsimp only at h
  split at h
  · rename_i p heq
    cases h
    have hstep : (0 : ℤ) ≤ max (10 * microsecondsPerMinute) (npNormalDraw o b).1 :=
      le_trans (by norm_num [microsecondsPerMinute]) (le_max_left _ _)
    have hinv0 := init_invh o i (b.base_time + microsecondsPerHour * ((i : ℤ) - 1))
      (npNormalDraw o b).2 (by
        intro ob hob
        exact hmono ob hob)
    rcases replay_invh heq hstep hinv0 with ⟨t', hinv'⟩
    rw [(emit_o2o_objects p.1 p.2).1]
    exact hinv'.1
  · exact absurd h (by simp)

theorem add_traces_from_mono {o : Oracle} {traces : List (List String)}
    {i : Nat} {b b' : Builder} (h : add_traces_from o i traces b = .ok b')
    (hmono : ∀ ob ∈ b.objects, PerNameMono ob) :
    ∀ ob ∈ b'.objects, PerNameMono ob := by
  induction traces generalizing i b with
  | nil =>
      rw [add_traces_from] at h
      cases h
      exact hmono
  | cons tr rest ih =>
      rw [add_traces_from] at h
      split at h
      · rename_i b1 heq
        exact ih h (add_single_trace_mono heq hmono)
      · exact absurd h (by simp)

theorem append_attr_light {b b' : Builder} {oid nm : String} {t : ℤ}
    {v : Value} (h : append_attr b oid nm t v = .ok b') :
    b'.events = b.events ∧ b'.objectRelationships = b.objectRelationships ∧
    objSig b'.objects = objSig b.objects := by
  rcases append_attr_ok_shape h with ⟨l₁, ob, l₂, hdec, hid, hl₂, hb'⟩
  subst hb'
  refine ⟨rfl, rfl, ?_⟩
  show objSig (l₁ ++ _ :: l₂) = objSig b.objects
  rw [hdec]
  exact objSig_update l₁ l₂ ob _ rfl rfl

theorem append_obj_attrs_light {triples : List (String × ℤ × Value)}
    {b b' : Builder} {oid : String}
    (h : append_obj_attrs b oid triples = .ok b') :
    b'.events = b.events ∧ b'.objectRelationships = b.objectRelationships ∧
    objSig b'.objects = objSig b.objects := by
  induction triples generalizing b with
  | nil =>
      rw [append_obj_attrs] at h
      cases h
      exact ⟨rfl, rfl, rfl⟩
  | cons tr rest ih =>
      rw [append_obj_attrs] at h
      split at h
      · rename_i b1 heq
        obtain ⟨h1, h2, h3⟩ := append_attr_light heq
        obtain ⟨h4, h5, h6⟩ := ih h
        exact ⟨h4.trans h1, h5.trans h2, h6.trans h3⟩
      · exact absurd h (by simp)

theorem reviewTests_light {tids : List String} {t : ℤ} {b b' : Builder}
    (h : reviewTests tids t b = .ok b') :
    b'.events = b.events ∧ b'.objectRelationships = b.objectRelationships ∧
    objSig b'.objects = objSig b.objects := by
  induction tids generalizing b with
  | nil =>
      rw [reviewTests] at h
      cases h
      exact ⟨rfl, rfl, rfl⟩
  | cons tid rest ih =>
      rw [reviewTests] at h
      split at h
      · rename_i b1 heq
        obtain ⟨h1, h2, h3⟩ := append_attr_light heq
        obtain ⟨h4, h5, h6⟩ := ih h
        exact ⟨h4.trans h1, h5.trans h2, h6.trans h3⟩
      · exact absurd h (by simp)

theorem create_test_light (o : Oracle) (ctx : Ctx) (t : ℤ) (modality : String)
    (b : Builder) :
    objSig (create_test o ctx t modality b).2.objects =
      objSig b.objects ++ [((create_test o ctx t modality b).1, "Test")] ∧
    (create_test o ctx t modality b).2.events = b.events ∧
    (create_test o ctx t modality b).2.objectRelationships =
      b.objectRelationships := by
  exact ⟨objSig_append_one _ _, rfl, rfl⟩

theorem create_diagnosis_light (o : Oracle) (ctx : Ctx) (t : ℤ) (b : Builder) :
    objSig (create_diagnosis o ctx t b).2.objects =
      objSig b.objects ++ [((create_diagnosis o ctx t b).1, "Diagnosis")] ∧
    (create_diagnosis o ctx t b).2.events = b.events ∧
    (create_diagnosis o ctx t b).2.objectRelationships =
      b.objectRelationships := by
  obtain ⟨h1, h2, h3⟩ := next_obj_suffix_fields b "Diagnosis"
  exact ⟨(objSig_append_one _ _).trans
    (by dsimp only [pyChoice, new_object_id]; rw [h1]; exact rfl), h2, h3⟩

theorem create_plan_light (o : Oracle) (ctx : Ctx) (t : ℤ) (dxId : String)
    (b : Builder) :
    objSig (create_plan o ctx t dxId b).2.objects =
      objSig b.objects ++ [((create_plan o ctx t dxId b).1, "TreatmentPlan")] ∧
    (create_plan o ctx t dxId b).2.events = b.events ∧
    (create_plan o ctx t dxId b).2.objectRelationships =
      b.objectRelationships := by
  obtain ⟨h1, h2, h3⟩ := next_obj_suffix_fields b "TreatmentPlan"
  exact ⟨(objSig_append_one _ _).trans
    (by dsimp only [pyChoice, new_object_id]; rw [h1]; exact rfl), h2, h3⟩

theorem create_medication_light (o : Oracle) (ctx : Ctx) (t : ℤ)
    (planId : String) (b : Builder) :
    objSig (create_medication o ctx t planId b).2.objects =
      objSig b.objects ++ [((create_medication o ctx t planId b).1, "Dose")] ∧
    (create_medication o ctx t planId b).2.events = b.events ∧
    (create_medication o ctx t planId b).2.objectRelationships =
      b.objectRelationships := by
  exact ⟨objSig_append_one _ _, rfl, rfl⟩

theorem ensureDxPlan_light (o : Oracle) (ctx : Ctx) (t : ℤ) (b : Builder) :
    (ensureDxPlan o ctx t b).2.2.events = b.events ∧
    (ensureDxPlan o ctx t b).2.2.objectRelationships = b.objectRelationships ∧
    ∃ sigs, objSig (ensureDxPlan o ctx t b).2.2.objects =
        objSig b.objects ++ sigs ∧
      (∀ p ∈ sigs, p.2 = "Diagnosis" ∨ p.2 = "TreatmentPlan") ∧
      sigs.countP (fun p => p.2 == "Diagnosis") =
        (if ctx.diagnosis_id.isSome then 0 else 1) ∧
      sigs.countP (fun p => p.2 == "TreatmentPlan") =
        (if ctx.plan_id.isSome then 0 else 1) := by
  unfold ensureDxPlan
  rcases hd : ctx.diagnosis_id with _ | d
  · rcases hp : ctx.plan_id with _ | p
    · simp only [hd, hp]
      obtain ⟨hd1, hd2, hd3⟩ := create_diagnosis_light o ctx t b
      obtain ⟨hp1, hp2, hp3⟩ := create_plan_light o
        { ctx with diagnosis_id := some (create_diagnosis o ctx t b).1 } t
        (create_diagnosis o ctx t b).1 (create_diagnosis o ctx t b).2
      refine ⟨hp2.trans hd2, hp3.trans hd3,
        ⟨[((create_diagnosis o ctx t b).1, "Diagnosis"),
          ((create_plan o { ctx with diagnosis_id := some (create_diagnosis o ctx t b).1 } t
            (create_diagnosis o ctx t b).1 (create_diagnosis o ctx t b).2).1,
            "TreatmentPlan")], ?_, ?_, ?_, ?_⟩⟩
      · exact hp1.trans (by rw [hd1]; simp)
      · simp
      · simp [List.countP_cons]
      · simp [List.countP_cons]
    · simp only [hd, hp]
      obtain ⟨hd1, hd2, hd3⟩ := create_diagnosis_light o ctx t b
      exact ⟨hd2, hd3, ⟨[((create_diagnosis o ctx t b).1, "Diagnosis")],
        by rw [hd1], by simp, by simp [List.countP_cons], by simp [List.countP_cons]⟩⟩
  · rcases hp : ctx.plan_id with _ | p
    · simp only [hd, hp]
      obtain ⟨hp1, hp2, hp3⟩ := create_plan_light o ctx t d b
      exact ⟨hp2, hp3, ⟨[((create_plan o ctx t d b).1, "TreatmentPlan")],
        by rw [hp1], by simp, by simp [List.countP_cons], by simp [List.countP_cons]⟩⟩
    · simp only [hd, hp]
      exact ⟨by trivial, by trivial, ⟨[], by simp, by simp, by simp, by simp⟩⟩

theorem countP_eq_zero_of_types {sigs : List (String × String)} {ty : String}
    (h : ∀ p ∈ sigs, p.2 ≠ ty) : sigs.countP (fun p => p.2 == ty) = 0 := by
  rw [List.countP_eq_zero]
  intro p hp
  simpa using h p hp

theorem pushEvent_events_eq {b : Builder} {l : List Event} (e : Event)
    (h : b.events = l) : (pushEvent b e).events = l ++ [e] := by
  simp [pushEvent, h]

theorem emit_registration_shape {ctx ctx' : Ctx} {t : ℤ} {b b' : Builder}
    (h : emit_event_registration ctx t b = .ok (ctx', b')) :
    StepShape ctx t b "OutpatientRegistration" ctx' b' := by
  unfold emit_event_registration at h
  cases h
  refine ⟨rfl, rfl, rfl, rfl, fun d hd => hd, fun p hp => hp, rfl,
    _, [], rfl, rfl, rfl, by simp, ?_, by simp [objSig, pushEvent, new_event_id],
    by simp, ?_, ?_, by simp⟩
  · intro r hr
    simp only [List.mem_cons, List.not_mem_nil, or_false] at hr
    rcases hr with rfl | rfl <;> simp
  · cases ctx.diagnosis_id <;> simp
  · cases ctx.plan_id <;> simp

theorem emit_initial_consult_shape {o : Oracle} {ctx ctx' : Ctx} {t : ℤ}
    {b b' : Builder} (h : emit_event_initial_consult o ctx t b = .ok (ctx', b')) :
    StepShape ctx t b "InitialVisit" ctx' b' := by
  unfold emit_event_initial_consult at h
  dsimp only at h
  split at h
  · exact absurd h (by simp)
  · rename_i b1 heq
    cases h
    obtain ⟨he, hr, hs⟩ := append_attr_light heq
    refine ⟨rfl, rfl, rfl, rfl, fun d hd => hd, fun p hp => hp, hr,
      _, [], pushEvent_events_eq _ he, rfl, rfl, by simp, ?_, ?_, by simp, ?_, ?_,
      by simp⟩
    · intro r hr2
      simp only [List.mem_cons, List.not_mem_nil, or_false] at hr2
      rcases hr2 with rfl | rfl <;> simp
    · show objSig b1.objects = objSig b.objects ++ []
      simpa using hs
    · cases ctx.diagnosis_id <;> simp
    · cases ctx.plan_id <;> simp

theorem emit_imaging_shape {o : Oracle} {ctx ctx' : Ctx} {t : ℤ}
    {b b' : Builder} (h : emit_event_imaging o ctx t b = .ok (ctx', b')) :
    StepShape ctx t b "ImagingTest" ctx' b' := by
  unfold emit_event_imaging at h
  cases h
  obtain ⟨hs, he, hr⟩ := create_test_light o ctx t
    (pyChoice o b ["CT", "MRI", "PET"]).1 (pyChoice o b ["CT", "MRI", "PET"]).2
  refine ⟨rfl, rfl, rfl, rfl, fun d hd => hd, fun p hp => hp, hr,
    _, [((create_test o ctx t (pyChoice o b ["CT", "MRI", "PET"]).1
      (pyChoice o b ["CT", "MRI", "PET"]).2).1, "Test")],
    pushEvent_events_eq _ he, rfl, rfl, by simp, ?_, ?_, by simp, ?_, ?_, by simp⟩
  · intro r hr2
    simp only [List.mem_cons, List.not_mem_nil, or_false] at hr2
    rcases hr2 with rfl | rfl | rfl <;> simp
  · show objSig (create_test o ctx t (pyChoice o b ["CT", "MRI", "PET"]).1
      (pyChoice o b ["CT", "MRI", "PET"]).2).2.objects = _
    simpa using hs
  · cases ctx.diagnosis_id <;> simp
  · cases ctx.plan_id <;> simp

theorem emit_lab_shape {o : Oracle} {ctx ctx' : Ctx} {t : ℤ}
    {b b' : Builder} (h : emit_event_lab o ctx t b = .ok (ctx', b')) :
    StepShape ctx t b "LabTest" ctx' b' := by
  unfold emit_event_lab at h
  cases h
  obtain ⟨hs, he, hr⟩ := create_test_light o ctx t
    (pyChoice o b ["Blood", "Pathology"]).1 (pyChoice o b ["Blood", "Pathology"]).2
  refine ⟨rfl, rfl, rfl, rfl, fun d hd => hd, fun p hp => hp, hr,
    _, [((create_test o ctx t (pyChoice o b ["Blood", "Pathology"]).1
      (pyChoice o b ["Blood", "Pathology"]).2).1, "Test")],
    pushEvent_events_eq _ he, rfl, rfl, by simp, ?_, ?_, by simp, ?_, ?_, by simp⟩
  · intro r hr2
    simp only [List.mem_cons, List.not_mem_nil, or_false] at hr2
    rcases hr2 with rfl | rfl | rfl <;> simp
  · show objSig (create_test o ctx t (pyChoice o b ["Blood", "Pathology"]).1
      (pyChoice o b ["Blood", "Pathology"]).2).2.objects = _
    simpa using hs
  · cases ctx.diagnosis_id <;> simp
  · cases ctx.plan_id <;> simp

theorem emit_followup_shape {o : Oracle} {ctx ctx' : Ctx} {t : ℤ}
    {b b' : Builder} (h : emit_event_followup o ctx t b = .ok (ctx', b')) :
    StepShape ctx t b "FollowUpVisit" ctx' b' := by
  unfold emit_event_followup at h
  dsimp only at h
  split at h
  · exact absurd h (by simp)
  · rename_i b1 heq
    cases h
    obtain ⟨he, hr, hs⟩ := reviewTests_light heq
    refine ⟨rfl, rfl, rfl, rfl, fun d hd => hd, fun p hp => hp, hr,
      _, [], pushEvent_events_eq _ he, rfl, rfl, by simp, ?_, ?_, by simp, ?_, ?_,
      by simp⟩
    · intro r hr2
      simp only [List.mem_append, List.mem_cons, List.not_mem_nil, or_false,
        List.mem_map] at hr2
      rcases hr2 with (rfl | rfl) | ⟨tid, _, rfl⟩ <;> simp
    · show objSig b1.objects = objSig b.objects ++ []
      simpa using hs
    · cases ctx.diagnosis_id <;> simp
    · cases ctx.plan_id <;> simp

theorem emit_payment_shape {o : Oracle} {ctx ctx' : Ctx} {t : ℤ}
    {b b' : Builder} (h : emit_event_payment o ctx t b = .ok (ctx', b')) :
    StepShape ctx t b "Payment" ctx' b' := by
  unfold emit_event_payment at h
  dsimp only at h
  split at h
  · exact absurd h (by simp)
  · rename_i b1 heq
    cases h
    obtain ⟨he, hr, hs⟩ := append_obj_attrs_light heq
    refine ⟨rfl, rfl, rfl, rfl, fun d hd => hd, fun p hp => hp, hr,
      _, [], pushEvent_events_eq _ he, rfl, rfl, by simp, ?_, ?_, by simp, ?_, ?_,
      by simp⟩
    · intro r hr2
      simp only [List.mem_cons, List.not_mem_nil, or_false] at hr2
      rcases hr2 with rfl | rfl <;> simp
    · show objSig b1.objects = objSig b.objects ++ []
      simpa using hs
    · cases ctx.diagnosis_id <;> simp
    · cases ctx.plan_id <;> simp

theorem emit_discharge_shape {ctx ctx' : Ctx} {t : ℤ}
    {b b' : Builder} (h : emit_event_discharge ctx t b = .ok (ctx', b')) :
    StepShape ctx t b "Discharge" ctx' b' := by
  unfold emit_event_discharge at h
  dsimp only at h
  split at h
  · exact absurd h (by simp)
  · rename_i b1 heq
    cases h
    obtain ⟨he, hr, hs⟩ := append_obj_attrs_light heq
    refine ⟨rfl, rfl, rfl, rfl, fun d hd => hd, fun p hp => hp, hr,
      _, [], pushEvent_events_eq _ he, rfl, rfl, by simp, ?_, ?_, by simp, ?_, ?_,
      by simp⟩
    · intro r hr2
      simp only [List.mem_cons, List.not_mem_nil, or_false] at hr2
      rcases hr2 with rfl | rfl <;> simp
    · show objSig b1.objects = objSig b.objects ++ []
      simpa using hs
    · cases ctx.diagnosis_id <;> simp
    · cases ctx.plan_id <;> simp

theorem emit_mdt_shape {o : Oracle} {ctx ctx' : Ctx} {t : ℤ}
    {b b' : Builder} (h : emit_event_mdt o ctx t b = .ok (ctx', b')) :
    StepShape ctx t b "JointConsult" ctx' b' := by
  unfold emit_event_mdt at h
  cases h
  obtain ⟨hq1, hq2, hq3, hq4, hq5, hq6, hq7, hq8, hq9, hq10, hq11⟩ :=
    ensureDxPlan_ctx o ctx t b
  obtain ⟨he, hr, sigs, hsig, hty, hcd, hcp⟩ := ensureDxPlan_light o ctx t b
  refine ⟨hq3, hq4, hq5, hq6, ?_, ?_, hr,
    _, sigs, pushEvent_events_eq _ he, rfl, rfl, by simp [hq3], ?_, ?_, ?_, ?_, ?_, ?_⟩
  · intro d hd
    rw [hq1, hq10 d hd]
  · intro p hp
    rw [hq2, hq11 p hp]
  · intro r hr2
    simp only [List.mem_cons, List.not_mem_nil, or_false] at hr2
    rcases hr2 with rfl | rfl | rfl | rfl <;> simp [hq1, hq2]
  · show objSig (ensureDxPlan o ctx t b).2.2.objects = _
    exact hsig
  · intro p hp
    rcases hty p hp with h1 | h1
    · exact Or.inr (Or.inl h1)
    · exact Or.inr (Or.inr (Or.inl h1))
  · rw [hcd, hq1]
    cases ctx.diagnosis_id <;> simp
  · rw [hcp, hq2]
    cases ctx.plan_id <;> simp
  · have hz : sigs.countP (fun p => p.2 == "Dose") = 0 := by
      apply countP_eq_zero_of_types
      intro p hp
      rcases hty p hp with h1 | h1 <;> simp [h1]
    rw [hz, hq7]
    simp

theorem emit_medication_shape {o : Oracle} {ctx ctx' : Ctx} {t : ℤ}
    {b b' : Builder} (h : emit_event_medication o ctx t b = .ok (ctx', b')) :
    StepShape ctx t b "MedicationTreatment" ctx' b' := by
  unfold emit_event_medication at h
  dsimp only at h
  split at h
  · exact absurd h (by simp)
  · rename_i b2 heq
    cases h
    obtain ⟨hq1, hq2, hq3, hq4, hq5, hq6, hq7, hq8, hq9, hq10, hq11⟩ :=
      ensureDxPlan_ctx o ctx t b
    obtain ⟨he, hr, sigs, hsig, hty, hcd, hcp⟩ := ensureDxPlan_light o ctx t b
    obtain ⟨hms, hme, hmr⟩ := create_medication_light o
      (ensureDxPlan o ctx t b).2.1 t (ensureDxPlan o ctx t b).1.2
      (ensureDxPlan o ctx t b).2.2
    obtain ⟨hae, har, has⟩ := append_attr_light heq
    refine ⟨hq3, hq4, hq5, hq6, ?_, ?_, har.trans (hmr.trans hr),
      _, sigs ++ [((create_medication o (ensureDxPlan o ctx t b).2.1 t
        (ensureDxPlan o ctx t b).1.2 (ensureDxPlan o ctx t b).2.2).1, "Dose")],
      pushEvent_events_eq _ (hae.trans (hme.trans he)), rfl, rfl,
      by simp [hq3], ?_, ?_, ?_, ?_, ?_, ?_⟩
    · intro d hd
      show (ensureDxPlan o ctx t b).2.1.diagnosis_id = some d
      rw [hq1, hq10 d hd]
    · intro p hp
      show (ensureDxPlan o ctx t b).2.1.plan_id = some p
      rw [hq2, hq11 p hp]
    · intro r hr2
      simp only [List.mem_cons, List.not_mem_nil, or_false] at hr2
      rcases hr2 with rfl | rfl | rfl | rfl <;> simp [hq2]
    · show objSig b2.objects = _
      rw [has, hms, hsig, List.append_assoc]
    · intro p hp
      rcases List.mem_append.mp hp with h1 | h1
      · rcases hty p h1 with h2 | h2
        · exact Or.inr (Or.inl h2)
        · exact Or.inr (Or.inr (Or.inl h2))
      · rw [List.mem_singleton.mp h1]
        exact Or.inr (Or.inr (Or.inr rfl))
    · rw [List.countP_append, hcd]
      have : List.countP (fun p => p.2 == "Diagnosis")
          [((create_medication o (ensureDxPlan o ctx t b).2.1 t
            (ensureDxPlan o ctx t b).1.2 (ensureDxPlan o ctx t b).2.2).1, "Dose")] = 0 := by
        simp [List.countP_cons]
      rw [this]
      show _ = (if ctx.diagnosis_id.isSome then 0 else
        if ((ensureDxPlan o ctx t b).2.1.diagnosis_id).isSome then 1 else 0)
      rw [hq1]
      cases ctx.diagnosis_id <;> simp
    · rw [List.countP_append, hcp]
      have : List.countP (fun p => p.2 == "TreatmentPlan")
          [((create_medication o (ensureDxPlan o ctx t b).2.1 t
            (ensureDxPlan o ctx t b).1.2 (ensureDxPlan o ctx t b).2.2).1, "Dose")] = 0 := by
        simp [List.countP_cons]
      rw [this]
      show _ = (if ctx.plan_id.isSome then 0 else
        if ((ensureDxPlan o ctx t b).2.1.plan_id).isSome then 1 else 0)
      rw [hq2]
      cases ctx.plan_id <;> simp
    · have hz : sigs.countP (fun p => p.2 == "Dose") = 0 := by
        apply countP_eq_zero_of_types
        intro p hp
        rcases hty p hp with h1 | h1 <;> simp [h1]
      rw [List.countP_append, hz]
      have h1 : List.countP (fun p => p.2 == "Dose")
          [((create_medication o (ensureDxPlan o ctx t b).2.1 t
            (ensureDxPlan o ctx t b).1.2 (ensureDxPlan o ctx t b).2.2).1, "Dose")] = 1 := by
        simp [List.countP_cons]
      rw [h1]
      show 0 + 1 + ctx.medication_ids.length =
        ((ensureDxPlan o ctx t b).2.1.medication_ids ++ [_]).length
      rw [hq7]
      simp [Nat.add_comm]

theorem step_shape {o : Oracle} {ctx ctx' : Ctx} {t : ℤ} {b b' : Builder}
    {act : String} (h : step_activity o ctx t b act = .ok (ctx', b')) :
    StepShape ctx t b act ctx' b' := by
  unfold step_activity at h
  split_ifs at h with h1 h2 h3 h4 h5 h6 h7 h8 h9
  · subst h1; exact emit_registration_shape h
  · subst h2; exact emit_initial_consult_shape h
  · subst h3; exact emit_imaging_shape h
  · subst h4; exact emit_lab_shape h
  · subst h5; exact emit_followup_shape h
  · subst h6; exact emit_mdt_shape h
  · subst h7; exact emit_medication_shape h
  · subst h8; exact emit_payment_shape h
  · subst h9; exact emit_discharge_shape h

theorem replay_shape {o : Oracle} {acts : List String} {ctx ctx' : Ctx}
    {t step : ℤ} {b b' : Builder}
    (h : replay_acts o acts ctx t step b = .ok (ctx', b')) :
    ReplayShape ctx t step b acts ctx' b' := by
  induction acts generalizing ctx t b with
  | nil =>
      rw [replay_acts] at h
      cases h
      refine ⟨rfl, rfl, rfl, rfl, fun d hd => hd, fun p hp => hp, rfl,
        [], [], by simp, rfl, ?_, ?_, by simp, by simp, ?_, ?_, by simp⟩
      · intro k hk _
        exact absurd hk (by simp)
      · intro e he
        exact absurd he (by simp)
      · cases ctx'.diagnosis_id <;> simp
      · cases ctx'.plan_id <;> simp
  | cons act rest ih =>
      rw [replay_acts] at h
      split at h
      · rename_i p heq
        obtain ⟨sp1, sp2, sp3, sp4, sp5, sp6, sp7, e, sigs1, hev1, htime1,
          htype1, hsubj1, hdx1, hsig1, hty1, hcd1, hcp1, hmed1⟩ := step_shape heq
        obtain ⟨rp1, rp2, rp3, rp4, rp5, rp6, rp7, es, sigs2, hev2, hlen2,
          hidx2, hdxev2, hsig2, hty2, hcd2, hcp2, hmed2⟩ := ih h
        refine ⟨rp1.trans sp1, rp2.trans sp2, rp3.trans sp3, rp4.trans sp4,
          fun d hd => rp5 d (sp5 d hd), fun p2 hp2 => rp6 p2 (sp6 p2 hp2),
          rp7.trans sp7, e :: es, sigs1 ++ sigs2, ?_, by simp [hlen2], ?_, ?_,
          ?_, ?_, ?_, ?_, ?_⟩
        · rw [hev2, hev1, List.append_assoc]
          rfl
        · intro k hk hk2
          match k with
          | 0 =>
              refine ⟨by simp [htime1], by simpa using htype1, ?_⟩
              simpa using hsubj1
          | Nat.succ j =>
              have hj : j < es.length := by simpa using hk
              have hj2 : j < rest.length := by simpa using hk2
              obtain ⟨ht, hty, hsub⟩ := hidx2 j hj hj2
              refine ⟨?_, by simpa using hty, ?_⟩
              · show (es.get ⟨j, hj⟩).time = t + (j + 1 : ℕ) * step
                rw [ht]
                push_cast
                ring
              · show EvRel.mk ctx.patient_id "subject" ∈ (es.get ⟨j, hj⟩).relationships
                rw [← sp1]
                exact hsub
        · intro e' he'
          rcases List.mem_cons.mp he' with rfl | he2
          · intro r hr
            exact ⟨fun hq => rp5 _ ((hdx1 r hr).1 hq),
              fun hq => rp6 _ ((hdx1 r hr).2 hq)⟩
          · exact hdxev2 e' he2
        · rw [hsig2, hsig1, List.append_assoc]
        · intro p2 hp2
          rcases List.mem_append.mp hp2 with h1 | h1
          · exact hty1 p2 h1
          · exact hty2 p2 h1
        · rw [List.countP_append, hcd1, hcd2]
          rcases hda : ctx.diagnosis_id with _ | d
          · rcases hdb : p.1.diagnosis_id with _ | d1
            · simp [hda, hdb]
            · have := rp5 d1 hdb
              simp [hda, hdb, this]
          · have := sp5 d hda
            simp [hda, this]
        · rw [List.countP_append, hcp1, hcp2]
          rcases hda : ctx.plan_id with _ | d
          · rcases hdb : p.1.plan_id with _ | d1
            · simp [hda, hdb]
            · have := rp6 d1 hdb
              simp [hda, hdb, this]
          · have := sp6 d hda
            simp [hda, this]
        · rw [List.countP_append]
          omega
      · exact absurd h (by simp)

theorem lastMatch_mem {objs : List Obj} {oid : String} {ob : Obj}
    (h : lastMatch objs oid = some ob) : ob ∈ objs ∧ ob.id = oid := by
  unfold lastMatch at h
  constructor
  · have := List.mem_of_find?_eq_some h
    simpa using this
  · have := List.find?_some h
    simpa using this

theorem append_attr_ok_of_lastMatch {b : Builder} {oid nm : String} {t : ℤ}
    {v : Value} {ob : Obj} (h : lastMatch b.objects oid = some ob) :
    ∃ b', append_attr b oid nm t v = .ok b' := by
  unfold append_attr
  rcases hr : appendAttrList b.objects oid nm t v with _ | objs'
  · obtain ⟨hmem, hid⟩ := lastMatch_mem h
    have := (appendAttrList_none_iff oid nm t v b.objects).mp hr ob hmem
    exact absurd hid this
  · exact ⟨_, rfl⟩

theorem get_obj_attr_after_append {b b' : Builder} {oid nm : String} {t : ℤ}
    {v : Value} (h : append_attr b oid nm t v = .ok b') :
    get_obj_attr b' oid nm = v := by
  rcases append_attr_ok_shape h with ⟨l₁, ob, l₂, hdec, hid, hl₂, hb'⟩
  subst hb'
  unfold get_obj_attr
  dsimp only
  rw [lastMatch_decomp l₁ l₂
    { ob with attributes := ob.attributes ++ [⟨nm, t, v⟩] } oid hid hl₂]
  simp only [List.filter_append]
  rw [show List.filter (fun a => a.name == nm) [(⟨nm, t, v⟩ : ObjAttr)] =
    [(⟨nm, t, v⟩ : ObjAttr)] from by simp]
  rw [List.getLast?_append_of_ne_nil]
  · simp
  · simp

theorem get_obj_attr_preserved {b b' : Builder} {oid tid nm : String} {t : ℤ}
    {v : Value} (h : append_attr b oid nm t v = .ok b')
    (hprev : get_obj_attr b tid nm = v) :
    get_obj_attr b' tid nm = v := by
  by_cases he : tid = oid
  · subst he
    exact get_obj_attr_after_append h
  · rcases append_attr_ok_shape h with ⟨l₁, ob, l₂, hdec, hid, hl₂, hb'⟩
    subst hb'
    unfold get_obj_attr at hprev ⊢
    dsimp only
    rw [lastMatch_update l₁ l₂ ob
      { ob with attributes := ob.attributes ++ [⟨nm, t, v⟩] } rfl tid
      (by rw [hid]; exact he), ← hdec]
    exact hprev

theorem lastMatch_preserved {b b' : Builder} {oid tid nm : String} {t : ℤ}
    {v : Value} (h : append_attr b oid nm t v = .ok b')
    (hprev : ∃ ob, lastMatch b.objects tid = some ob) :
    ∃ ob, lastMatch b'.objects tid = some ob := by
  rcases append_attr_ok_shape h with ⟨l₁, ob, l₂, hdec, hid, hl₂, hb'⟩
  subst hb'
  by_cases he : tid = oid
  · subst he
    exact ⟨_, lastMatch_decomp l₁ l₂ _ tid hid hl₂⟩
  · rcases hprev with ⟨ob2, hob2⟩
    refine ⟨ob2, ?_⟩
    show lastMatch (l₁ ++ _ :: l₂) tid = some ob2
    rw [lastMatch_update l₁ l₂ ob
      { ob with attributes := ob.attributes ++ [⟨nm, t, v⟩] } rfl tid
      (by rw [hid]; exact he), ← hdec]
    exact hob2

theorem reviewTests_ok (t : ℤ) :
    ∀ (tids : List String) (b : Builder),
      (∀ tid ∈ tids, ∃ ob, lastMatch b.objects tid = some ob) →
      ∃ b', reviewTests tids t b = .ok b' ∧
        (∀ tid ∈ tids, get_obj_attr b' tid "result_state" = .str "Reviewed") ∧
        (∀ tid, get_obj_attr b tid "result_state" = .str "Reviewed" →
          get_obj_attr b' tid "result_state" = .str "Reviewed") ∧
        (∀ tid, (∃ ob, lastMatch b.objects tid = some ob) →
          ∃ ob, lastMatch b'.objects tid = some ob) ∧
        b'.events = b.events := by
  intro tids
  induction tids with
  | nil =>
      intro b _
      exact ⟨b, rfl, by simp, fun _ h => h, fun _ h => h, rfl⟩
  | cons tid rest ih =>
      intro b hres
      obtain ⟨ob, hob⟩ := hres tid (by simp)
      obtain ⟨b1, hb1⟩ := @append_attr_ok_of_lastMatch b tid "result_state" t
        (Value.str "Reviewed") ob hob
      obtain ⟨b2, hb2, hall2, hpres2, hres2, hev2⟩ := ih b1 (fun tid2 h2 =>
        lastMatch_preserved hb1 (hres tid2 (List.mem_cons_of_mem _ h2)))
      refine ⟨b2, ?_, ?_, ?_, ?_, ?_⟩
      · rw [reviewTests, hb1]
        exact hb2
      · intro tid2 h2
        rcases List.mem_cons.mp h2 with rfl | h3
        · exact hpres2 tid2 (get_obj_attr_after_append hb1)
        · exact hall2 tid2 h3
      · intro tid2 h2
        exact hpres2 tid2 (get_obj_attr_preserved hb1 h2)
      · intro tid2 h2
        exact hres2 tid2 (lastMatch_preserved hb1 h2)
      · rw [hev2, (append_attr_light hb1).1]

theorem followup_reviews_all {o : Oracle} {ctx : Ctx} {t : ℤ} {b : Builder}
    (hres : ∀ tid ∈ ctx.test_ids, ∃ ob, lastMatch b.objects tid = some ob) :
    ∃ ctx' b' e, emit_event_followup o ctx t b = .ok (ctx', b') ∧
      b'.events = b.events ++ [e] ∧ e.type = "FollowUpVisit" ∧ e.time = t ∧
      (∀ tid ∈ ctx.test_ids, EvRel.mk tid "reviewed_test" ∈ e.relationships) ∧
      (∀ tid ∈ ctx.test_ids,
        get_obj_attr b' tid "result_state" = .str "Reviewed") := by
  obtain ⟨b1, hb1, hall, hpres, hres1, hev1⟩ := reviewTests_ok t ctx.test_ids b hres
  refine ⟨ctx,
    pushEvent (pyChoice o (new_event_id b1).2
      ["AdditionalTesting", "TreatmentPlanning", "Monitoring"]).2
      { id := (new_event_id b1).1, type := "FollowUpVisit", time := t,
        attributes := [⟨"Assessment", .str (pyChoice o (new_event_id b1).2
          ["AdditionalTesting", "TreatmentPlanning", "Monitoring"]).1⟩],
        relationships := [⟨ctx.patient_id, "subject"⟩, ⟨ctx.visit_id, "encounter"⟩] ++
          ctx.test_ids.map (fun tid => ⟨tid, "reviewed_test"⟩) },
    { id := (new_event_id b1).1, type := "FollowUpVisit", time := t,
      attributes := [⟨"Assessment", .str (pyChoice o (new_event_id b1).2
        ["AdditionalTesting", "TreatmentPlanning", "Monitoring"]).1⟩],
      relationships := [⟨ctx.patient_id, "subject"⟩, ⟨ctx.visit_id, "encounter"⟩] ++
        ctx.test_ids.map (fun tid => ⟨tid, "reviewed_test"⟩) },
    ?_, ?_, rfl, rfl, ?_, ?_⟩
  · unfold emit_event_followup
    dsimp only
    rw [hb1]
  · exact pushEvent_events_eq _ hev1
  · intro tid htid
    simp only [List.mem_append, List.mem_map]
    exact Or.inr ⟨tid, htid, rfl⟩
  · intro tid htid
    show get_obj_attr b1 tid "result_state" = _
    exact hall tid htid

theorem create_patient_light (o : Oracle) (b : Builder) (i : Nat) (t : ℤ) :
    objSig (create_patient o b i t).2.objects =
      objSig b.objects ++ [((create_patient o b i t).1, "Patient")] ∧
    (create_patient o b i t).2.events = b.events ∧
    (create_patient o b i t).2.objectRelationships = b.objectRelationships := by
  obtain ⟨h1, h2, h3⟩ := next_obj_suffix_fields b "Patient"
  exact ⟨(objSig_append_one _ _).trans
    (by dsimp only [pyChoice, pyRandint, new_object_id]; rw [h1]; exact rfl), h2, h3⟩

theorem create_visit_light (o : Oracle) (b : Builder) (i : Nat) (t : ℤ) :
    objSig (create_visit o b i t).2.objects =
      objSig b.objects ++ [((create_visit o b i t).1, "Encounter")] ∧
    (create_visit o b i t).2.events = b.events ∧
    (create_visit o b i t).2.objectRelationships = b.objectRelationships := by
  obtain ⟨h1, h2, h3⟩ := next_obj_suffix_fields b "Encounter"
  exact ⟨(objSig_append_one _ _).trans
    (by dsimp only [pyChoice, new_object_id]; rw [h1]; exact rfl), h2, h3⟩

theorem init_light (o : Oracle) (i : Nat) (t : ℤ) (b : Builder) :
    (init_trace_objects o i t b).1.trace_index = i ∧
    (init_trace_objects o i t b).1.start_time = t ∧
    (init_trace_objects o i t b).1.diagnosis_id = Option.none ∧
    (init_trace_objects o i t b).1.plan_id = Option.none ∧
    (init_trace_objects o i t b).1.medication_ids = [] ∧
    (init_trace_objects o i t b).1.test_ids = [] ∧
    objSig (init_trace_objects o i t b).2.objects = objSig b.objects ++
      [((init_trace_objects o i t b).1.patient_id, "Patient"),
       ((init_trace_objects o i t b).1.visit_id, "Encounter")] ∧
    (init_trace_objects o i t b).2.events = b.events ∧
    (init_trace_objects o i t b).2.objectRelationships =
      b.objectRelationships := by
  obtain ⟨hp1, hp2, hp3⟩ := create_patient_light o b i t
  obtain ⟨hv1, hv2, hv3⟩ := create_visit_light o (create_patient o b i t).2 i t
  refine ⟨rfl, rfl, rfl, rfl, rfl, rfl, ?_, hv2.trans hp2, hv3.trans hp3⟩
  show objSig (create_visit o (create_patient o b i t).2 i t).2.objects = _
  rw [hv1, hp1]
  simp
  exact ⟨rfl, rfl⟩

theorem o2o_fold_rels (ts : ℤ) (pid : String) :
    ∀ (l : List String) (bb : Builder),
      ∃ rs, (l.foldl (fun bb mid =>
          o2o_new_rel bb "TreatmentPlan-Dose" ts pid mid) bb).objectRelationships =
        bb.objectRelationships ++ rs ∧
      rs.length = l.length ∧
      (∀ r ∈ rs, r.type = "TreatmentPlan-Dose" ∧ r.time = ts ∧
        r.sourceObject = pid) ∧
      rs.map (fun r => r.targetObject) = l := by
  intro l
  induction l with
  | nil => intro bb; exact ⟨[], by simp, rfl, by simp, rfl⟩
  | cons x xs ih =>
      intro bb
      obtain ⟨rs, h1, h2, h3, h4⟩ := ih (o2o_new_rel bb "TreatmentPlan-Dose" ts pid x)
      refine ⟨(O2ORel.mk ("or" ++ Nat.repr bb.o2o_seq) "TreatmentPlan-Dose"
        ts pid x :: rs), ?_, ?_, ?_, ?_⟩
      · show (xs.foldl _ (o2o_new_rel bb "TreatmentPlan-Dose" ts pid x)).objectRelationships = _
        rw [h1]
        show (bb.objectRelationships ++ [_]) ++ rs = _
        simp
      · simp [h2]
      · intro r hr
        rcases List.mem_cons.mp hr with rfl | h5
        · exact ⟨rfl, rfl, rfl⟩
        · exact h3 r h5
      · simp [h4]

theorem emit_o2o_shape (ctx : Ctx) (b : Builder) :
    ∃ encR doseRs,
      (emit_o2o ctx b).objectRelationships =
        b.objectRelationships ++ encR :: doseRs ∧
      encR.type = "Encounter-Patient" ∧ encR.time = ctx.start_time ∧
      encR.sourceObject = ctx.visit_id ∧ encR.targetObject = ctx.patient_id ∧
      doseRs.length = (if ctx.plan_id.isSome then ctx.medication_ids.length else 0) ∧
      (∀ r ∈ doseRs, r.type = "TreatmentPlan-Dose" ∧ r.time = ctx.start_time ∧
        (∃ pid, ctx.plan_id = some pid ∧ r.sourceObject = pid)) ∧
      (ctx.plan_id.isSome → doseRs.map (fun r => r.targetObject) =
        (if ctx.medication_ids.isEmpty then [] else ctx.medication_ids)) := by
  unfold emit_o2o
  rcases hp : ctx.plan_id with _ | pid
  · refine ⟨O2ORel.mk ("or" ++ Nat.repr b.o2o_seq) "Encounter-Patient"
      ctx.start_time ctx.visit_id ctx.patient_id, [],
      by simp [o2o_new_rel], rfl, rfl, rfl, rfl, by simp, by simp, by simp⟩
  · by_cases hm : ctx.medication_ids.isEmpty
    · simp only [hm, if_true]
      refine ⟨O2ORel.mk ("or" ++ Nat.repr b.o2o_seq) "Encounter-Patient"
        ctx.start_time ctx.visit_id ctx.patient_id, [],
        by simp [o2o_new_rel], rfl, rfl, rfl, rfl, ?_, by simp, by simp [hm]⟩
      rw [List.isEmpty_iff] at hm
      simp [hm]
    · simp only [hm, Bool.false_eq_true, if_false]
      obtain ⟨rs, h1, h2, h3, h4⟩ := o2o_fold_rels ctx.start_time pid
        ctx.medication_ids (o2o_new_rel b "Encounter-Patient" ctx.start_time
          ctx.visit_id ctx.patient_id)
      refine ⟨O2ORel.mk ("or" ++ Nat.repr b.o2o_seq) "Encounter-Patient"
        ctx.start_time ctx.visit_id ctx.patient_id, rs, ?_, rfl, rfl, rfl, rfl,
        by simp [h2], ?_, ?_⟩
      · rw [h1]
        show (b.objectRelationships ++ [_]) ++ rs = _
        simp
      · intro r hr
        obtain ⟨ht, hts, hsrc⟩ := h3 r hr
        exact ⟨ht, hts, pid, rfl, hsrc⟩
      · intro _
        simp [hm, h4]

theorem add_single_trace_decomp {o : Oracle} {i : Nat} {acts : List String}
    {b b' : Builder} (h : add_single_trace o i acts b = .ok b') :
    ∃ p, replay_acts o acts
        (init_trace_objects o i (b.base_time + microsecondsPerHour * ((i : ℤ) - 1))
          (npNormalDraw o b).2).1
        (b.base_time + microsecondsPerHour * ((i : ℤ) - 1))
        (max (10 * microsecondsPerMinute) (npNormalDraw o b).1)
        (init_trace_objects o i (b.base_time + microsecondsPerHour * ((i : ℤ) - 1))
          (npNormalDraw o b).2).2 =
      .ok p ∧ b' = emit_o2o p.1 p.2 := by
  unfold add_single_trace at h
  dsimp only at h
  split at h
  · rename_i p heq
    cases h
    exact ⟨p, heq, rfl⟩
  · exact absurd h (by simp)

/-- C10: for a fixed oracle (covering the seeded generators), seed,
configuration and traces, two full runs — each constructing a fresh engine
(`mkBuilder`, which re-seeds both RNGs and so ignores whatever ambient RNG
state `a1`/`n1` vs `a2`/`n2` was left behind) and replaying the same
traces — produce identical output documents. -/
theorem run_determinism : ∀ (o : Oracle) (a1 n1 a2 n2 : Nat) (seed : Int)
    (mean std : ℚ) (base : ℤ) (traces : List (List String)),
    run_doc o a1 n1 seed mean std base traces =
      run_doc o a2 n2 seed mean std base traces :=
  fun _ _ _ _ _ _ _ _ _ _ => rfl

/-- C1 (code-bug exhibit): replaying the single trace `[JointConsult]`
appends an event whose `type` is the string `"MDT"`, which is neither one
of the nine canonical activity labels nor declared in the event type
schema, although `"JointConsult"` itself is in the vocabulary. -/
theorem jointconsult_event_type_is_mdt :
    ((add_traces oracle0 [["JointConsult"]] builder0).toOption.getD
      default).events.map (fun e => e.type) = ["MDT"] ∧
    "MDT" ∉ activity_vocab ∧ "MDT" ∉ default_event_type_names ∧
    "JointConsult" ∈ activity_vocab := by
  refine ⟨by decide, by decide, by decide, by decide⟩

/-- C4 counterexample: an attribute lookup against an object id that is
not present in the (empty) global collection does not fail — it returns
the Python `None` value, contradicting the claim that the lookup is a
fatal NotFound error. -/
theorem missing_id_lookup_returns_none :
    builder0.objects = [] ∧
    get_obj_attr builder0 "pat-001" "sex" = Value.none := by
  exact ⟨rfl, rfl⟩

/-- C2 counterexample: with a per-trace step of 10 minutes (a normal draw
of 0, floored), the Test object created by `ImagingTest` carries its
forward-dated `findings` entry at +15 minutes, and the later
`FollowUpVisit` at +10 minutes appends `result_state` behind it, so the
object's attribute history is not in non-decreasing timestamp order. -/
theorem attr_history_not_globally_monotone :
    (add_traces oracle0 [["ImagingTest", "FollowUpVisit"]] builder0).toOption.isSome = true ∧
    (((add_traces oracle0 [["ImagingTest", "FollowUpVisit"]] builder0).toOption.getD
      default).objects.getD 2 default).type = "Test" ∧
    ((((add_traces oracle0 [["ImagingTest", "FollowUpVisit"]] builder0).toOption.getD
      default).objects.getD 2 default).attributes.map (fun a => a.time)) =
      [0, 0, 0, 0, 0, 900000000, 600000000] ∧
    ¬ ((((add_traces oracle0 [["ImagingTest", "FollowUpVisit"]] builder0).toOption.getD
      default).objects.getD 2 default).attributes.map (fun a => a.time)).Pairwise
        (· ≤ ·) := by
  refine ⟨by decide, by decide, by decide, by decide⟩

theorem step_activity_unknown {o : Oracle} {act : String}
    (h : act ∉ activity_vocab) (ctx : Ctx) (t : ℤ) (b : Builder) :
    step_activity o ctx t b act = .error ("Unknown activity label: " ++ act) := by
  simp only [activity_vocab, default_event_type_names, List.mem_cons,
    List.not_mem_nil, or_false] at h
  push_neg at h
  obtain ⟨h1, h2, h3, h4, h5, h6, h7, h8, h9⟩ := h
  unfold step_activity
  rw [if_neg h1, if_neg h2, if_neg h3, if_neg h4, if_neg h5, if_neg h6,
    if_neg h7, if_neg h8, if_neg h9]

theorem replay_acts_unknown {o : Oracle} {act : String}
    (h : act ∉ activity_vocab) :
    ∀ (acts : List String) (ctx : Ctx) (t step : ℤ) (b : Builder),
      act ∈ acts → ∃ m, replay_acts o acts ctx t step b = .error m := by
  intro acts
  induction acts with
  | nil => intro ctx t step b hmem; exact absurd hmem (by simp)
  | cons a rest ih =>
      intro ctx t step b hmem
      rw [replay_acts]
      rcases hs : step_activity o ctx t b a with m | p
      · exact ⟨m, rfl⟩
      · rcases List.mem_cons.mp hmem with rfl | h2
        · rw [step_activity_unknown h ctx t b] at hs
          exact absurd hs (by simp)
        · exact ih p.1 (t + step) step p.2 h2

theorem add_single_trace_unknown {o : Oracle} {act : String}
    (h : act ∉ activity_vocab) (i : Nat) (acts : List String) (b : Builder)
    (hmem : act ∈ acts) : ∃ m, add_single_trace o i acts b = .error m := by
  unfold add_single_trace
  dsimp only
  obtain ⟨m, hm⟩ := replay_acts_unknown h acts _ _ _ _ hmem
  rw [hm]
  exact ⟨m, rfl⟩

/-- C3: dispatching any activity label outside the fixed vocabulary raises
the `Unknown activity label` error without touching the builder, replay of
a trace starting with such a label aborts immediately (later activities of
that input are never processed), any input containing such a label makes
`add_traces` fail, and the full run then produces no output document. -/
theorem unknown_activity_aborts :
    ∀ (o : Oracle) (act : String), act ∉ activity_vocab →
      (∀ (ctx : Ctx) (t : ℤ) (b : Builder),
        step_activity o ctx t b act =
          .error ("Unknown activity label: " ++ act)) ∧
      (∀ (ctx : Ctx) (t step : ℤ) (b : Builder) (rest : List String),
        replay_acts o (act :: rest) ctx t step b =
          .error ("Unknown activity label: " ++ act)) ∧
      (∀ (i : Nat) (traces : List (List String)) (b : Builder),
        (∃ tr ∈ traces, act ∈ tr) →
        ∃ m, add_traces_from o i traces b = .error m) ∧
      (∀ (a1 n1 : Nat) (seed : Int) (mean std : ℚ) (base : ℤ)
        (traces : List (List String)), (∃ tr ∈ traces, act ∈ tr) →
        ∃ m, run_doc o a1 n1 seed mean std base traces = .error m) := by
  intro o act h
  have htr : ∀ (traces : List (List String)) (i : Nat) (b : Builder),
      (∃ tr ∈ traces, act ∈ tr) →
      ∃ m, add_traces_from o i traces b = .error m := by
    intro traces
    induction traces with
    | nil =>
        intro i b hex
        simp at hex
    | cons tr rest ih =>
        intro i b hex
        rw [add_traces_from]
        rcases hs : add_single_trace o i tr b with m | b1
        · exact ⟨m, rfl⟩
        · obtain ⟨tr2, htr2, hact2⟩ := hex
          rcases List.mem_cons.mp htr2 with rfl | h3
          · obtain ⟨m, hm⟩ := add_single_trace_unknown h i tr2 b hact2
            rw [hm] at hs
            exact absurd hs (by simp)
          · exact ih (i + 1) b1 ⟨tr2, h3, hact2⟩
  refine ⟨step_activity_unknown h, ?_, fun i traces b => htr traces i b, ?_⟩
  · intro ctx t step b rest
    rw [replay_acts, step_activity_unknown h ctx t b]
  · intro a1 n1 seed mean std base traces hex
    obtain ⟨m, hm⟩ := htr traces 1 (mkBuilder o a1 n1 seed mean std base) hex
    refine ⟨m, ?_⟩
    unfold run_doc add_traces
    rw [hm]
    rfl

/-- C3 witness: the label `"XRay"` is outside the vocabulary, and a run on
the single trace `["XRay"]` yields an error and no document. -/
theorem unknown_activity_aborts_witness :
    "XRay" ∉ activity_vocab ∧
    ∃ m, run_doc oracle0 0 0 42 30 10 0 [["XRay"]] = .error m := by
  have h := unknown_activity_aborts oracle0 "XRay" (by decide)
  exact ⟨by decide, h.2.2.2 0 0 42 30 10 0 [["XRay"]] ⟨["XRay"], by simp, by simp⟩⟩

/-- C4 (amended): for an object id not present in the global collection,
an attribute mutation (`_append_attr`) fails with the fatal
`KeyError`-style error, while an attribute lookup (`_get_obj_attr`) does
not fail: it returns Python `None`, the same value it returns when the
object exists but lacks the attribute. -/
theorem missing_id_mutation_raises_lookup_none :
    ∀ (b : Builder) (oid nm : String) (t : ℤ) (v : Value),
      (∀ ob ∈ b.objects, ob.id ≠ oid) →
      append_attr b oid nm t v = .error ("Object " ++ oid ++ " not found") ∧
      get_obj_attr b oid nm = Value.none := by
  intro b oid nm t v hno
  constructor
  · unfold append_attr
    rw [(appendAttrList_none_iff oid nm t v b.objects).mpr hno]
  · unfold get_obj_attr
    have hlm : lastMatch b.objects oid = Option.none := by
      unfold lastMatch
      rw [List.find?_eq_none]
      intro x hx
      simpa using hno x (by simpa using hx)
    rw [hlm]

/-- C4 witness: against the fresh engine (empty objects collection), the
mutation of `pat-001` raises and the lookup returns `None`. -/
theorem missing_id_mutation_witness :
    (∀ ob ∈ builder0.objects, ob.id ≠ "pat-001") ∧
    append_attr builder0 "pat-001" "sex" 0 (Value.str "M") =
      .error ("Object " ++ "pat-001" ++ " not found") ∧
    get_obj_attr builder0 "pat-001" "sex" = Value.none := by
  have h0 : ∀ ob ∈ builder0.objects, ob.id ≠ "pat-001" := by
    intro ob hob
    simp [builder0, mkBuilder] at hob
  exact ⟨h0, missing_id_mutation_raises_lookup_none builder0 "pat-001" "sex" 0
    (Value.str "M") h0⟩

/-- C5: `add_traces` replays traces with 1-based indices, and for each
successfully replayed trace the emitted events start at
`base_time + (i - 1) hours`, a single per-trace step equal to
`max(10 minutes, the np.random.normal(mean, std) draw)` is computed once,
each event is stamped start `+ k * step`, and the timestamps are strictly
increasing in emission order. -/
theorem trace_timestamps :
    (∀ (o : Oracle) (traces : List (List String)) (b : Builder),
      add_traces o traces b = add_traces_from o 1 traces b) ∧
    ∀ (o : Oracle) (i : Nat) (acts : List String) (b b' : Builder),
      add_single_trace o i acts b = .ok b' →
      ∃ step es,
        step = max (10 * microsecondsPerMinute)
          (o.npNormal b.npRng b.event_step_mean_minutes
            b.event_step_std_minutes).1 ∧
        10 * microsecondsPerMinute ≤ step ∧
        b'.events = b.events ++ es ∧
        es.length = acts.length ∧
        (∀ k (hk : k < es.length),
          (es.get ⟨k, hk⟩).time =
            b.base_time + microsecondsPerHour * ((i : ℤ) - 1) + k * step) ∧
        List.Chain' (· < ·) (es.map (fun e => e.time)) := by
  refine ⟨fun _ _ _ => rfl, ?_⟩
  intro o i acts b b' h
  obtain ⟨p, hrep, hb'⟩ := add_single_trace_decomp h
  obtain ⟨_, _, _, _, _, _, _, es, sigs, hev, hlen, hidx, _, _, _, _, _, _⟩ :=
    replay_shape hrep
  obtain ⟨_, _, _, _, _, _, _, hie, _⟩ := init_light o i
    (b.base_time + microsecondsPerHour * ((i : ℤ) - 1)) (npNormalDraw o b).2
  have hnpev : (npNormalDraw o b).2.events = b.events := rfl
  refine ⟨max (10 * microsecondsPerMinute) (npNormalDraw o b).1, es, rfl,
    le_max_left _ _, ?_, hlen, ?_, ?_⟩
  · rw [hb', (emit_o2o_objects p.1 p.2).2, hev, hie, hnpev]
  · intro k hk
    exact (hidx k hk (by rw [← hlen]; exact hk)).1
  · rw [List.chain'_iff_get]
    intro k hk
    simp only [List.length_map] at hk
    have hk1 : k < es.length := by omega
    have hk2 : k + 1 < es.length := by omega
    rw [List.get_map, List.get_map]
    rw [(hidx k hk1 (by omega)).1, (hidx (k + 1) hk2 (by omega)).1]
    have hstep : (0 : ℤ) < max (10 * microsecondsPerMinute) (npNormalDraw o b).1 :=
      lt_of_lt_of_le (by norm_num [microsecondsPerMinute]) (le_max_left _ _)
    have : (k : ℤ) * max (10 * microsecondsPerMinute) (npNormalDraw o b).1 <
        ((k : ℤ) + 1) * max (10 * microsecondsPerMinute) (npNormalDraw o b).1 := by
      nlinarith
    push_cast
    linarith

/-- C5 witness: a concrete two-activity trace replayed with the floor step
of 10 minutes. -/
theorem trace_timestamps_witness :
    ∃ b' step es,
      add_single_trace oracle0 1 ["OutpatientRegistration", "InitialVisit"]
        builder0 = .ok b' ∧
      10 * microsecondsPerMinute ≤ step ∧
      b'.events = builder0.events ++ es ∧ es.length = 2 ∧
      List.Chain' (· < ·) (es.map (fun e => e.time)) := by
  obtain ⟨b', hb'⟩ : ∃ b', add_single_trace oracle0 1
      ["OutpatientRegistration", "InitialVisit"] builder0 = .ok b' := ⟨_, rfl⟩
  obtain ⟨step, es, _, h2, h3, h4, _, h6⟩ :=
    trace_timestamps.2 oracle0 1 _ builder0 b' hb'
  exact ⟨b', step, es, hb', h2, h3, by simpa using h4, h6⟩

/-- C9: each successfully replayed trace creates exactly one Patient
object (first among the trace's created objects; no other created object
has type Patient), and every event emitted for the trace carries a
`subject` relationship to that Patient's id. -/
theorem events_have_subject_patient :
    ∀ (o : Oracle) (i : Nat) (acts : List String) (b b' : Builder),
      add_single_trace o i acts b = .ok b' →
      ∃ pid sigs es,
        objSig b'.objects = objSig b.objects ++ (pid, "Patient") :: sigs ∧
        (∀ p ∈ sigs, p.2 ≠ "Patient") ∧
        b'.events = b.events ++ es ∧
        ∀ e ∈ es, EvRel.mk pid "subject" ∈ e.relationships := by
  intro o i acts b b' h
  obtain ⟨p, hrep, hb'⟩ := add_single_trace_decomp h
  obtain ⟨_, _, _, _, _, _, _, es, sigs, hev, hlen, hidx, _, hsig, hty, _, _, _⟩ :=
    replay_shape hrep
  obtain ⟨_, _, _, _, _, _, his, hie, _⟩ := init_light o i
    (b.base_time + microsecondsPerHour * ((i : ℤ) - 1)) (npNormalDraw o b).2
  have hnps : objSig (npNormalDraw o b).2.objects = objSig b.objects := rfl
  have hnpe : (npNormalDraw o b).2.events = b.events := rfl
  refine ⟨(init_trace_objects o i
      (b.base_time + microsecondsPerHour * ((i : ℤ) - 1))
      (npNormalDraw o b).2).1.patient_id,
    ((init_trace_objects o i
      (b.base_time + microsecondsPerHour * ((i : ℤ) - 1))
      (npNormalDraw o b).2).1.visit_id, "Encounter") :: sigs, es, ?_, ?_, ?_, ?_⟩
  · rw [hb', (emit_o2o_objects p.1 p.2).1, hsig, his, hnps]
    simp
  · intro q hq
    rcases List.mem_cons.mp hq with rfl | h2
    · show "Encounter" ≠ "Patient"
      decide
    · rcases hty q h2 with h3 | h3 | h3 | h3 <;> rw [h3] <;> decide
  · rw [hb', (emit_o2o_objects p.1 p.2).2, hev, hie, hnpe]
  · intro e he
    rw [List.mem_iff_get] at he
    obtain ⟨⟨k, hk⟩, rfl⟩ := he
    exact (hidx k hk (by omega)).2.2

/-- C9 witness: a concrete trace whose events all reference the created
Patient via a subject relationship. -/
theorem events_have_subject_patient_witness :
    ∃ b' pid sigs es,
      add_single_trace oracle0 1 ["OutpatientRegistration", "Payment"]
        builder0 = .ok b' ∧
      objSig b'.objects = objSig builder0.objects ++ (pid, "Patient") :: sigs ∧
      b'.events = builder0.events ++ es ∧
      ∀ e ∈ es, EvRel.mk pid "subject" ∈ e.relationships := by
  obtain ⟨b', hb'⟩ : ∃ b', add_single_trace oracle0 1
      ["OutpatientRegistration", "Payment"] builder0 = .ok b' := ⟨_, rfl⟩
  obtain ⟨pid, sigs, es, h1, _, h3, h4⟩ :=
    events_have_subject_patient oracle0 1 _ builder0 b' hb'
  exact ⟨b', pid, sigs, es, hb', h1, h3, h4⟩

/-- C7: each successfully replayed trace creates at most one Diagnosis and
at most one TreatmentPlan object, and all `diagnosis`-qualified
(resp. `plan`-qualified) relationships on the trace's events reference one
single shared id, i.e. later `JointConsult`/`MedicationTreatment`
activities reuse the ids created on first need. -/
theorem diagnosis_plan_created_once :
    ∀ (o : Oracle) (i : Nat) (acts : List String) (b b' : Builder),
      add_single_trace o i acts b = .ok b' →
      ∃ sigs es,
        objSig b'.objects = objSig b.objects ++ sigs ∧
        b'.events = b.events ++ es ∧
        sigs.countP (fun p => p.2 == "Diagnosis") ≤ 1 ∧
        sigs.countP (fun p => p.2 == "TreatmentPlan") ≤ 1 ∧
        ∃ d pl, ∀ e ∈ es, ∀ r ∈ e.relationships,
          (r.qualifier = "diagnosis" → r.objectId = d) ∧
          (r.qualifier = "plan" → r.objectId = pl) := by
  intro o i acts b b' h
  obtain ⟨p, hrep, hb'⟩ := add_single_trace_decomp h
  obtain ⟨_, _, _, _, _, _, _, es, sigs, hev, hlen, hidx, hdxev, hsig, hty,
    hcd, hcp, _⟩ := replay_shape hrep
  obtain ⟨_, _, hid, hip, _, _, his, hie, _⟩ := init_light o i
    (b.base_time + microsecondsPerHour * ((i : ℤ) - 1)) (npNormalDraw o b).2
  have hnps : objSig (npNormalDraw o b).2.objects = objSig b.objects := rfl
  have hnpe : (npNormalDraw o b).2.events = b.events := rfl
  refine ⟨((init_trace_objects o i
      (b.base_time + microsecondsPerHour * ((i : ℤ) - 1))
      (npNormalDraw o b).2).1.patient_id, "Patient") ::
    ((init_trace_objects o i
      (b.base_time + microsecondsPerHour * ((i : ℤ) - 1))
      (npNormalDraw o b).2).1.visit_id, "Encounter") :: sigs, es, ?_, ?_, ?_, ?_, ?_⟩
  · rw [hb', (emit_o2o_objects p.1 p.2).1, hsig, his, hnps]
    simp
  · rw [hb', (emit_o2o_objects p.1 p.2).2, hev, hie, hnpe]
  · rw [List.countP_cons, List.countP_cons]
    rw [hcd, hid]
    rcases p.1.diagnosis_id <;> simp
  · rw [List.countP_cons, List.countP_cons]
    rw [hcp, hip]
    rcases p.1.plan_id <;> simp
  · rcases hfd : p.1.diagnosis_id with _ | d <;> rcases hfp : p.1.plan_id with _ | pl
    · refine ⟨"", "", fun e he r hr => ⟨fun hq => ?_, fun hq => ?_⟩⟩
      · have := (hdxev e he r hr).1 hq
        rw [hfd] at this
        exact absurd this (by simp)
      · have := (hdxev e he r hr).2 hq
        rw [hfp] at this
        exact absurd this (by simp)
    · refine ⟨"", pl, fun e he r hr => ⟨fun hq => ?_, fun hq => ?_⟩⟩
      · have := (hdxev e he r hr).1 hq
        rw [hfd] at this
        exact absurd this (by simp)
      · have := (hdxev e he r hr).2 hq
        rw [hfp] at this
        exact (Option.some.inj this).symm
    · refine ⟨d, "", fun e he r hr => ⟨fun hq => ?_, fun hq => ?_⟩⟩
      · have := (hdxev e he r hr).1 hq
        rw [hfd] at this
        exact (Option.some.inj this).symm
      · have := (hdxev e he r hr).2 hq
        rw [hfp] at this
        exact absurd this (by simp)
    · refine ⟨d, pl, fun e he r hr => ⟨fun hq => ?_, fun hq => ?_⟩⟩
      · have := (hdxev e he r hr).1 hq
        rw [hfd] at this
        exact (Option.some.inj this).symm
      · have := (hdxev e he r hr).2 hq
        rw [hfp] at this
        exact (Option.some.inj this).symm

/-- C7 witness: a trace with both `JointConsult` and `MedicationTreatment`
creating at most one Diagnosis and one TreatmentPlan. -/
theorem diagnosis_plan_created_once_witness :
    ∃ b' sigs,
      add_single_trace oracle0 1 ["JointConsult", "MedicationTreatment",
        "MedicationTreatment"] builder0 = .ok b' ∧
      objSig b'.objects = objSig builder0.objects ++ sigs ∧
      sigs.countP (fun p => p.2 == "Diagnosis") ≤ 1 ∧
      sigs.countP (fun p => p.2 == "TreatmentPlan") ≤ 1 := by
  obtain ⟨b', hb'⟩ : ∃ b', add_single_trace oracle0 1 ["JointConsult",
      "MedicationTreatment", "MedicationTreatment"] builder0 = .ok b' := ⟨_, rfl⟩
  obtain ⟨sigs, es, h1, _, h3, h4, _⟩ :=
    diagnosis_plan_created_once oracle0 1 _ builder0 b' hb'
  exact ⟨b', sigs, hb', h1, h3, h4⟩

/-- C8: after each successfully replayed trace the relationship emitter
appends exactly `1 + (number of Doses created in the trace, if a
TreatmentPlan was created, else 0)` records: one `Encounter-Patient`
record from the trace's Encounter to its Patient, plus one
`TreatmentPlan-Dose` record per Dose, all timestamped at the trace start
time `base_time + (i - 1) hours`. -/
theorem o2o_relationships_per_trace :
    ∀ (o : Oracle) (i : Nat) (acts : List String) (b b' : Builder),
      add_single_trace o i acts b = .ok b' →
      ∃ pid vid sigs encR doseRs,
        objSig b'.objects = objSig b.objects ++
          (pid, "Patient") :: (vid, "Encounter") :: sigs ∧
        b'.objectRelationships = b.objectRelationships ++ encR :: doseRs ∧
        encR.type = "Encounter-Patient" ∧ encR.sourceObject = vid ∧
        encR.targetObject = pid ∧
        doseRs.length = (if sigs.any (fun p => p.2 == "TreatmentPlan")
          then sigs.countP (fun p => p.2 == "Dose") else 0) ∧
        (∀ r ∈ doseRs, r.type = "TreatmentPlan-Dose") ∧
        (∀ r ∈ encR :: doseRs,
          r.time = b.base_time + microsecondsPerHour * ((i : ℤ) - 1)) := by
  intro o i acts b b' h
  obtain ⟨p, hrep, hb'⟩ := add_single_trace_decomp h
  obtain ⟨rp1, rp2, _, rp4, _, _, rp7, es, sigs, hev, hlen, hidx, hdxev, hsig,
    hty, hcd, hcp, hmed⟩ := replay_shape hrep
  obtain ⟨_, hst, hid, hip, him, _, his, hie, hir⟩ := init_light o i
    (b.base_time + microsecondsPerHour * ((i : ℤ) - 1)) (npNormalDraw o b).2
  obtain ⟨encR, doseRs, ho1, ho2, ho3, ho4, ho5, ho6, ho7, ho8⟩ :=
    emit_o2o_shape p.1 p.2
  have hnps : objSig (npNormalDraw o b).2.objects = objSig b.objects := rfl
  have hnpr : (npNormalDraw o b).2.objectRelationships =
    b.objectRelationships := rfl
  have hstart : p.1.start_time =
      b.base_time + microsecondsPerHour * ((i : ℤ) - 1) := by
    rw [rp4, hst]
  refine ⟨(init_trace_objects o i
      (b.base_time + microsecondsPerHour * ((i : ℤ) - 1))
      (npNormalDraw o b).2).1.patient_id,
    (init_trace_objects o i
      (b.base_time + microsecondsPerHour * ((i : ℤ) - 1))
      (npNormalDraw o b).2).1.visit_id,
    sigs, encR, doseRs, ?_, ?_, ho2, ?_, ?_, ?_, ?_, ?_⟩
  · rw [hb', (emit_o2o_objects p.1 p.2).1, hsig, his, hnps]
    simp
  · rw [hb', ho1, rp7, hir, hnpr]
  · rw [ho4, rp2]
  · rw [ho5, rp1]
  · rw [hip] at hcp
    rw [him] at hmed
    simp only [Option.isSome_none, Bool.false_eq_true, if_false,
      List.length_nil, Nat.add_zero] at hcp hmed
    rcases hps : p.1.plan_id with _ | pl
    · rw [hps] at hcp ho6
      simp only [Option.isSome_none, Bool.false_eq_true, if_false] at hcp ho6
      have hany : sigs.any (fun p => p.2 == "TreatmentPlan") = false := by
        rw [List.any_eq_false]
        intro q hq
        by_contra hq2
        have hpos : 0 < sigs.countP (fun p => p.2 == "TreatmentPlan") :=
          List.countP_pos.mpr ⟨q, hq, by simpa using hq2⟩
        omega
      simp [hany, ho6]
    · rw [hps] at hcp ho6
      simp only [Option.isSome_some, if_true] at hcp ho6
      have hany : sigs.any (fun p => p.2 == "TreatmentPlan") = true := by
        rw [List.any_eq_true]
        have hpos : 0 < sigs.countP (fun p => p.2 == "TreatmentPlan") := by
          omega
        obtain ⟨q, hq, hq2⟩ := List.countP_pos.mp hpos
        exact ⟨q, hq, hq2⟩
      simp [hany, ho6, hmed]
  · intro r hr
    exact (ho7 r hr).1
  · intro r hr
    rcases List.mem_cons.mp hr with rfl | h2
    · rw [ho3, hstart]
    · rw [(ho7 r h2).2.1, hstart]

/-- C8 witness: a trace with one Dose yields one `Encounter-Patient` and
one `TreatmentPlan-Dose` record. -/
theorem o2o_relationships_per_trace_witness :
    ∃ b' pid vid sigs encR doseRs,
      add_single_trace oracle0 1 ["MedicationTreatment"] builder0 = .ok b' ∧
      objSig b'.objects = objSig builder0.objects ++
        (pid, "Patient") :: (vid, "Encounter") :: sigs ∧
      b'.objectRelationships = builder0.objectRelationships ++
        encR :: doseRs ∧
      encR.type = "Encounter-Patient" ∧
      (∀ r ∈ doseRs, r.type = "TreatmentPlan-Dose") := by
  obtain ⟨b', hb'⟩ : ∃ b', add_single_trace oracle0 1 ["MedicationTreatment"]
      builder0 = .ok b' := ⟨_, rfl⟩
  obtain ⟨pid, vid, sigs, encR, doseRs, h1, h2, h3, _, _, _, h7, _⟩ :=
    o2o_relationships_per_trace oracle0 1 _ builder0 b' hb'
  exact ⟨b', pid, vid, sigs, encR, doseRs, hb', h1, h2, h3, h7⟩

/-- C2 (amended): the global timestamp-order claim fails (see the
counterexample), but per attribute name it holds: if every object of the
builder has per-name chronological histories, then after a successful
`add_traces` run every object still does, so for each name the most
recently appended entry is also the latest-stamped one. -/
theorem attr_history_per_name_monotone :
    ∀ (o : Oracle) (traces : List (List String)) (b b' : Builder),
      (∀ ob ∈ b.objects, PerNameMono ob) →
      add_traces o traces b = .ok b' →
      ∀ ob ∈ b'.objects, PerNameMono ob := by
  intro o traces b b' hm h
  exact add_traces_from_mono h hm

/-- C2 amended witness: a run touching Tests, a FollowUpVisit and
medication keeps every object history per-name chronological. -/
theorem attr_history_per_name_monotone_witness :
    ∃ b', add_traces oracle0
        [["ImagingTest", "FollowUpVisit", "MedicationTreatment"]] builder0 =
        .ok b' ∧ ∀ ob ∈ b'.objects, PerNameMono ob := by
  obtain ⟨b', hb'⟩ : ∃ b', add_traces oracle0
      [["ImagingTest", "FollowUpVisit", "MedicationTreatment"]] builder0 =
      .ok b' := ⟨_, rfl⟩
  refine ⟨b', hb', attr_history_per_name_monotone oracle0 _ builder0 b' ?_ hb'⟩
  intro ob hob
  simp [builder0, mkBuilder] at hob

/-- C6: handling a FollowUpVisit appends one FollowUpVisit event carrying
a `reviewed_test` relationship to every Test tracked so far in the trace,
and stamps each such Test's current `result_state` value as `Reviewed`;
moreover every replay reached from a consistent state keeps each tracked
test id resolving to a Test object, so the handler's resolvability
precondition always holds when a FollowUpVisit is dispatched. -/
theorem followup_marks_tests_reviewed :
    (∀ (o : Oracle) (ctx : Ctx) (t : ℤ) (b : Builder),
      (∀ tid ∈ ctx.test_ids, ∃ ob, lastMatch b.objects tid = some ob) →
      ∃ ctx' b' e, emit_event_followup o ctx t b = .ok (ctx', b') ∧
        b'.events = b.events ++ [e] ∧ e.type = "FollowUpVisit" ∧
        (∀ tid ∈ ctx.test_ids,
          EvRel.mk tid "reviewed_test" ∈ e.relationships) ∧
        (∀ tid ∈ ctx.test_ids,
          get_obj_attr b' tid "result_state" = Value.str "Reviewed")) ∧
    (∀ (o : Oracle) (acts : List String) (ctx ctx' : Ctx) (t step : ℤ)
        (b b' : Builder), 0 ≤ step → InvH ctx t b →
      replay_acts o acts ctx t step b = .ok (ctx', b') →
      ∀ tid ∈ ctx'.test_ids, ∃ ob, lastMatch b'.objects tid = some ob ∧
        ob.type = "Test") := by
  constructor
  · intro o ctx t b hres
    obtain ⟨ctx', b', e, h1, h2, h3, _, h5, h6⟩ := followup_reviews_all hres
    exact ⟨ctx', b', e, h1, h2, h3, h5, h6⟩
  · intro o acts ctx ctx' t step b b' hstep hinv h
    obtain ⟨t', hinv'⟩ := replay_invh h hstep hinv
    intro tid htid
    obtain ⟨_, ob, hob, hty, _⟩ := hinv'.2.2.2.1 tid htid
    exact ⟨ob, hob, hty⟩

/-- C6 witness: with one earlier Test `test-001-1` on file, the
FollowUpVisit handler emits the reviewing event and that Test's current
`result_state` value becomes `Reviewed`. -/
theorem followup_marks_tests_reviewed_witness :
    ∃ ctx' b' e,
      emit_event_followup oracle0
        (Ctx.mk 1 0 "pat-001-1" "enc-001-1" Option.none Option.none []
          ["test-001-1"] 0) 0
        { builder0 with objects := [Obj.mk "test-001-1" "Test" []] } =
        .ok (ctx', b') ∧
      b'.events = builder0.events ++ [e] ∧ e.type = "FollowUpVisit" ∧
      EvRel.mk "test-001-1" "reviewed_test" ∈ e.relationships ∧
      get_obj_attr b' "test-001-1" "result_state" = Value.str "Reviewed" := by
  obtain ⟨ctx', b', e, h1, h2, h3, h4, h5⟩ :=
    followup_marks_tests_reviewed.1 oracle0
      (Ctx.mk 1 0 "pat-001-1" "enc-001-1" Option.none Option.none []
        ["test-001-1"] 0) 0
      { builder0 with objects := [Obj.mk "test-001-1" "Test" []] }
      (by
        intro tid htid
        simp only [List.mem_singleton] at htid
        subst htid
        exact ⟨Obj.mk "test-001-1" "Test" [], rfl⟩)
  refine ⟨ctx', b', e, h1, h2, h3, ?_, ?_⟩
  · exact h4 "test-001-1" (by simp)
  · exact h5 "test-001-1" (by simp)

end OCEL
